import Mathlib

/-!
Verification development for a batch source-transformation tool consisting of
five Python scripts (apply-phase1-standards.py, apply-rbac.py,
update-phase1-endpoints.py, migrate-endpoints.py, fix-all-methods.py).

File contents are modelled as lists of characters.  Each script's
per-file transformation is embedded as a computable Lean function that
mirrors the Python source line by line; the regular-expression based
rewrites are embedded as deterministic scanners that are extensionally
equivalent to the patterns used by the scripts (each pattern used by the
scripts admits a deterministic reading, established case by case).
-/

/-- Characters of a string literal, used to write file contents. -/
def str (s : String) : List Char := s.data

/-- Python regex and str.strip whitespace class (ASCII). -/
def wsChar (c : Char) : Bool :=
  c == ' ' || c == '\t' || c == '\n' || c == '\x0b' || c == '\x0c' || c == '\r'

/-- Python regex word class (ASCII fragment). -/
def wordChar (c : Char) : Bool :=
  c.isAlpha || c.isDigit || c == '_'

/-- Either kind of quote character, the regex class with a double and a single quote. -/
def quoteChar (c : Char) : Bool := c == '\x27' || c == '"'

/-- Boolean prefix test. -/
def startsW : List Char → List Char → Bool
  | [], _ => true
  | _ :: _, [] => false
  | p :: ps, c :: cs => p == c && startsW ps cs

/-- Boolean substring test, Python's in operator on strings. -/
def occursIn (pat : List Char) : List Char → Bool
  | [] => startsW pat []
  | c :: cs => startsW pat (c :: cs) || occursIn pat cs

/-- Boolean suffix test. -/
def endsW (pat l : List Char) : Bool := startsW pat.reverse l.reverse

/-- Count of non-overlapping occurrences, leftmost first, with explicit fuel. -/
def countOccF (pat : List Char) : Nat → List Char → Nat
  | _, [] => 0
  | 0, _ => 0
  | n + 1, c :: cs =>
    if startsW pat (c :: cs) then 1 + countOccF pat n (List.drop (pat.length - 1) cs)
    else countOccF pat n cs

/-- Count of non-overlapping occurrences, Python str.count. -/
def countOcc (pat l : List Char) : Nat := countOccF pat l.length l

/-- Python str.strip. -/
def trimBoth (l : List Char) : List Char :=
  ((l.dropWhile wsChar).reverse.dropWhile wsChar).reverse

/-- Split on the newline character, Python str.split of a newline. -/
def linesOf (l : List Char) : List (List Char) := List.splitOn '\n' l

/-- Rejoin lines with newlines, Python newline join. -/
def joinLines (ls : List (List Char)) : List Char := List.intercalate ['\n'] ls

/-- Python list.insert at an index. -/
def insAt (n : Nat) (a : α) (l : List α) : List α := l.take n ++ a :: l.drop n

/-- Match an exact literal at the head, returning consumed text and rest. -/
def splitLit : List Char → List Char → Option (List Char × List Char)
  | [], l => some ([], l)
  | _ :: _, [] => none
  | p :: ps, c :: cs =>
    if p == c then
      match splitLit ps cs with
      | some pr => some (c :: pr.1, pr.2)
      | none => none
    else none

/-- Take the maximal run satisfying a predicate together with the rest. -/
def splitRun (p : Char → Bool) (l : List Char) : List Char × List Char :=
  (l.takeWhile p, l.dropWhile p)

/-- Maximal run satisfying a predicate, required nonempty, with the rest. -/
def splitRun1 (p : Char → Bool) (l : List Char) : Option (List Char × List Char) :=
  match l with
  | [] => none
  | c :: _ => if p c then some (splitRun p l) else none

/-- Scan zero or more characters not satisfying stop, then one satisfying it;
consumed text includes the stop character. -/
def splitToP (stop : Char → Bool) : List Char → Option (List Char × List Char)
  | [] => none
  | c :: cs =>
    if stop c then some ([c], cs)
    else
      match splitToP stop cs with
      | some pr => some (c :: pr.1, pr.2)
      | none => none

/-- Like splitToP but requiring at least one character before the stop. -/
def splitThruP (stop : Char → Bool) : List Char → Option (List Char × List Char)
  | [] => none
  | c :: cs =>
    if stop c then none
    else
      match splitToP stop cs with
      | some pr => some (c :: pr.1, pr.2)
      | none => none

/-- Leftmost match of a head-matcher anywhere in the list; returns the text up
to and including the match together with the rest (re.search). -/
def searchSplit (f : List Char → Option (List Char × List Char)) :
    List Char → Option (List Char × List Char)
  | [] => none
  | c :: cs =>
    match f (c :: cs) with
    | some pr => some pr
    | none =>
      match searchSplit f cs with
      | some pr => some (c :: pr.1, pr.2)
      | none => none

/-- Replace every non-overlapping leftmost match (re.sub, str.replace), with fuel. -/
def subAllF (f : List Char → Option (List Char × List Char))
    (rep : List Char → List Char) : Nat → List Char → List Char
  | _, [] => []
  | 0, l => l
  | n + 1, c :: cs =>
    match f (c :: cs) with
    | some pr => rep pr.1 ++ subAllF f rep n pr.2
    | none => c :: subAllF f rep n cs

/-- Replace every non-overlapping leftmost match (re.sub, str.replace). -/
def subAll (f : List Char → Option (List Char × List Char))
    (rep : List Char → List Char) (l : List Char) : List Char :=
  subAllF f rep l.length l

/-- Replace only the first match (re.sub with count one). -/
def subFirst (f : List Char → Option (List Char × List Char))
    (rep : List Char → List Char) : List Char → List Char
  | [] => []
  | c :: cs =>
    match f (c :: cs) with
    | some pr => rep pr.1 ++ pr.2
    | none => c :: subFirst f rep cs

/-- All non-overlapping matches in order (re.findall), with fuel. -/
def hitsF (f : List Char → Option (List Char × List Char)) :
    Nat → List Char → List (List Char)
  | _, [] => []
  | 0, _ => []
  | n + 1, c :: cs =>
    match f (c :: cs) with
    | some pr => pr.1 :: hitsF f n pr.2
    | none => hitsF f n cs

/-- All non-overlapping matches in order (re.findall). -/
def hitsOf (f : List Char → Option (List Char × List Char)) (l : List Char) :
    List (List Char) := hitsF f l.length l

/-- No match of the head-matcher begins inside the first argument when the
second is appended after it. -/
def noHitIn (f : List Char → Option (List Char × List Char)) :
    List Char → List Char → Bool
  | [], _ => true
  | c :: cs, rest => (f (c :: cs ++ rest)).isNone && noHitIn f cs rest

/-- Match a single character from a character class. -/
def splitCh (p : Char → Bool) : List Char → Option (List Char × List Char)
  | [] => none
  | c :: cs => if p c then some ([c], cs) else none

/-- Greedy whitespace run followed by a nonempty captured run of characters not
satisfying stop, with the usual backtracking of a greedy whitespace star: when
the whole run before the stop is whitespace the capture is its last character.
Returns (whitespace consumed, capture, rest beginning at the stop). -/
def splitWsCap (stop : Char → Bool) (l : List Char) : Option (List Char × List Char × List Char) :=
  let R := l.takeWhile (fun c => !(stop c))
  let rest := l.dropWhile (fun c => !(stop c))
  if R.isEmpty then none
  else
    let wsP := R.takeWhile wsChar
    if wsP.length = R.length then some (R.dropLast, R.drop (R.length - 1), rest)
    else some (wsP, R.drop wsP.length, rest)

/-- Split at the end of the last non-overlapping match (re.finditer, last match
end), with fuel. -/
def lastHitSplitF (f : List Char → Option (List Char × List Char)) :
    Nat → List Char → Option (List Char × List Char)
  | _, [] => none
  | 0, _ => none
  | n + 1, c :: cs =>
    match f (c :: cs) with
    | some pr =>
      match lastHitSplitF f n pr.2 with
      | some qr => some (pr.1 ++ qr.1, qr.2)
      | none => some pr
    | none =>
      match lastHitSplitF f n cs with
      | some qr => some (c :: qr.1, qr.2)
      | none => none

/-- Split at the end of the last non-overlapping match (re.finditer). -/
def lastHitSplit (f : List Char → Option (List Char × List Char)) (l : List Char) :
    Option (List Char × List Char) := lastHitSplitF f l.length l

/-- Python exceptions that the scripts can raise while processing one file. -/
inductive PyErr
  | ioError
  | attributeError
deriving DecidableEq

/-- The filesystem interactions of one file task: existence, the outcome of
reading, and the outcome of an attempted write. -/
structure FileOps where
  present : Bool
  readRes : Except PyErr (List Char)
  writeRes : Except PyErr Unit

/-- Variant of subAllF whose replacement can raise, used for re.sub with a
raising lambda; the first raise aborts the whole substitution. -/
def subAllEF (f : List Char → Option (List Char × List Char))
    (rep : List Char → Except PyErr (List Char)) : Nat → List Char → Except PyErr (List Char)
  | _, [] => .ok []
  | 0, l => .ok l
  | n + 1, c :: cs =>
    match f (c :: cs) with
    | some pr => do
      let h ← rep pr.1
      let t ← subAllEF f rep n pr.2
      .ok (h ++ t)
    | none => do
      let t ← subAllEF f rep n cs
      .ok (c :: t)

/-- Decimal digits of a number, Python str of an int. -/
def natStr (n : Nat) : List Char := (Nat.repr n).data

/-- The five HTTP method names iterated by the scripts. -/
def methodNames : List (List Char) :=
  [str "GET", str "POST", str "PUT", str "PATCH", str "DELETE"]

namespace UpdEp

/-- REQUIRED_IMPORTS correlation line of update-phase1-endpoints.py. -/
def corrImport : List Char := str "import \x7b getRequestId, logRequest, logResponse \x7d from \x27@/middleware/correlation\x27;"

/-- REQUIRED_IMPORTS rateLimit line. -/
def rateImport : List Char := str "import \x7b addRateLimitHeaders, globalRateLimitTracker \x7d from \x27@/middleware/rateLimit\x27;"

/-- REQUIRED_IMPORTS response line. -/
def respImport : List Char := str "import \x7b standardErrorResponse, validationErrorResponse, ErrorCodes, addStandardHeaders \x7d from \x27@/lib/response\x27;"

/-- REQUIRED_IMPORTS pagination line. -/
def pagImport : List Char := str "import \x7b parseStandardPaginationParams, buildStandardListResponse \x7d from \x27@/lib/pagination\x27;"

/-- The phase1_init block inserted by update_method_handler. -/
def phase1Init : List Char := str "\n  const requestId = getRequestId(request);\n  const startTime = Date.now();\n"

/-- The idempotency marker checked by update_method_handler. -/
def reqIdMarker : List Char := str "const requestId = getRequestId(request);"

/-- The literal authorization destructure searched by add_rate_limiting. -/
def authDestr : List Char := str "const \x7b tenantId, user \x7d = authResult;"

/-- The rate-check marker checked by add_rate_limiting. -/
def trackMarker : List Char := str "globalRateLimitTracker.trackRequest"

/-- RATE_LIMITS table: limit and window per method, with the dict.get default. -/
def RATE_LIMITS (m : List Char) : Nat × Nat :=
  if m = str "GET" then (100, 3600)
  else if m = str "POST" then (50, 3600)
  else if m = str "PUT" then (50, 3600)
  else if m = str "PATCH" then (50, 3600)
  else if m = str "DELETE" then (20, 3600)
  else (100, 3600)

/-- Method-specific key suffix of add_rate_limiting. -/
def keySuffix (m : List Char) : List Char :=
  if m = str "GET" then []
  else if m = str "POST" then str "_create"
  else if m = str "PUT" then str "_update"
  else if m = str "PATCH" then str "_update"
  else if m = str "DELETE" then str "_delete"
  else []

/-- Fixed pieces of the rate_limit_code f-string of add_rate_limiting. -/
def rlA : List Char := str "\n\n    // Rate limiting ("

/-- Piece between the first limit and the key suffix. -/
def rlB : List Char := str " requests per hour per user)\n    const rateLimit = globalRateLimitTracker.trackRequest(\n      `user_$\x7buser.userId\x7d"

/-- Piece between the key suffix and the limit argument. -/
def rlC : List Char := str "`,\n      "

/-- Piece between the limit and window arguments. -/
def rlD : List Char := str ",\n      "

/-- Trailing piece of rate_limit_code with the 429 branch. -/
def rlE : List Char := str "\n    );\n\n    if (rateLimit.remaining === 0) \x7b\n      const minutesLeft = Math.ceil((rateLimit.reset - Math.floor(Date.now() / 1000)) / 60);\n      return standardErrorResponse(\n        ErrorCodes.RATE_LIMIT_EXCEEDED,\n        `Rate limit exceeded. Try again in $\x7bminutesLeft\x7d minutes.`,\n        429,\n        undefined,\n        requestId\n      );\n    \x7d\n"

/-- The full rate_limit_code f-string for a method. -/
def rlCode (m : List Char) : List Char :=
  rlA ++ natStr (RATE_LIMITS m).1 ++ rlB ++ keySuffix m ++ rlC ++
    natStr (RATE_LIMITS m).1 ++ rlD ++ natStr (RATE_LIMITS m).2 ++ rlE

/-- Text spliced in place of console.error by add_logging_to_catch. -/
def logRepl : List Char := str "logResponse(requestId, 500, Date.now() - startTime, \x7b\n      error: error.message,\n    \x7d);\n\n    console.error"

/-- Rewritten catch header emitted by add_logging_to_catch. -/
def catchHead : List Char := str "\x7d catch (error: any) \x7b"

/-- Leading piece of the response-header replacement. -/
def respHdrA : List Char := str "const response = NextResponse.json("

/-- Trailing piece of the response-header replacement. -/
def respHdrB : List Char := str ");\n    addStandardHeaders(response, requestId);\n    return response;"

/-- Replacement pieces of replace_old_error_functions: not-found. -/
def nfA : List Char := str "standardErrorResponse(ErrorCodes.NOT_FOUND, \x27"

/-- Not-found trailing piece. -/
def nfB : List Char := str "\x27, 404, undefined, requestId)"

/-- Bad-request leading piece. -/
def brA : List Char := str "standardErrorResponse(ErrorCodes.VALIDATION_ERROR, \x27"

/-- Bad-request trailing piece. -/
def brB : List Char := str "\x27, 400, undefined, requestId)"

/-- Internal-error leading piece. -/
def iseA : List Char := str "standardErrorResponse(ErrorCodes.INTERNAL_ERROR, \x27"

/-- Internal-error trailing piece. -/
def iseB : List Char := str "\x27, 500, undefined, requestId)"

/-- Internal-error replacement for the unquoted shape. -/
def iseDefault : List Char := str "standardErrorResponse(ErrorCodes.INTERNAL_ERROR, \x27An unexpected error occurred\x27, 500, undefined, requestId)"

/-- A line whose stripped form begins with import followed by a space. -/
def isImportLine (line : List Char) : Bool := startsW (str "import ") (trimBoth line)

/-- Index of the last import line, zero when there is none (add_imports). -/
def lastImportIdx (lines : List (List Char)) : Nat :=
  lines.enum.foldl (fun acc p => if isImportLine p.2 then p.1 else acc) 0

/-- The line test of the response-import replacement loop in add_imports. -/
def respLineTest (line : List Char) : Bool :=
  occursIn (str "@/lib/response") line && !occursIn (str "standardErrorResponse") line

/-- The response-import branch condition of add_imports. -/
def respCond (content : List Char) : Bool :=
  (!occursIn (str "standardErrorResponse") content || occursIn (str "errorResponse(") content)
    && !occursIn respImport content

/-- Index of the line replaced by the response-import branch, when any. -/
def respReplaceIdx (content : List Char) (lines : List (List Char)) : Option Nat :=
  if respCond content then List.findIdx? respLineTest lines else none

/-- The list imports_to_add accumulated by add_imports, in order. -/
def importsToAdd (content path : List Char) (lines : List (List Char)) : List (List Char) :=
  (if !occursIn (str "getRequestId") content || !occursIn (str "logResponse") content
   then [corrImport] else []) ++
  (if !occursIn (str "globalRateLimitTracker") content then [rateImport] else []) ++
  (if respCond content && (List.findIdx? respLineTest lines).isNone then [respImport] else []) ++
  (if occursIn (str "route.ts") path && !occursIn (str "[id]") path
      && !occursIn (str "parseStandardPaginationParams") content
   then [pagImport] else [])

/-- add_imports of update-phase1-endpoints.py. -/
def add_imports (content path : List Char) : List Char :=
  let lines := linesOf content
  let k := lastImportIdx lines
  let toAdd := importsToAdd content path lines
  let lines1 := match respReplaceIdx content lines with
    | some i => lines.set i respImport
    | none => lines
  let lines2 := toAdd.foldr
    (fun imp ls => if !occursIn imp content then insAt (k + 1) imp ls else ls) lines1
  joinLines lines2

/-- Deterministic reading of the method-header pattern of update_method_handler:
the literal export async function M, a whitespace run, an opening parenthesis, a
nonempty run up to the first closing parenthesis, a whitespace run and an
opening brace. -/
def tryUMH (m : List Char) (l : List Char) : Option (List Char × List Char) := do
  let (a, r1) ← splitLit (str "export async function " ++ m) l
  let w1 := splitRun wsChar r1
  let (p1, r2) ← splitLit ['('] w1.2
  let (b, r3) ← splitThruP (fun c => c == ')') r2
  let w2 := splitRun wsChar r3
  let (p2, r4) ← splitLit ['\x7b'] w2.2
  pure (a ++ w1.1 ++ p1 ++ b ++ w2.1 ++ p2, r4)

/-- update_method_handler of update-phase1-endpoints.py. -/
def update_method_handler (content m : List Char) : List Char :=
  match searchSplit (tryUMH m) content with
  | none => content
  | some pr =>
    if occursIn reqIdMarker (pr.2.take 500) then content
    else pr.1 ++ phase1Init ++ pr.2

/-- add_rate_limiting of update-phase1-endpoints.py. -/
def add_rate_limiting (content m : List Char) : List Char :=
  match searchSplit (splitLit authDestr) content with
  | none => content
  | some pr =>
    if occursIn trackMarker content then content
    else pr.1 ++ rlCode m ++ pr.2

/-- Deterministic reading of the inline-return pattern of
update_response_headers. -/
def tryRetJson (l : List Char) : Option (List Char × List Char) := do
  let (_, r1) ← splitLit (str "return NextResponse.json(") l
  let (b, r2) ← splitThruP (fun c => c == ')') r1
  let (_, r3) ← splitLit [';'] r2
  pure (respHdrA ++ b.dropLast ++ respHdrB, r3)

/-- update_response_headers of update-phase1-endpoints.py. -/
def update_response_headers (content : List Char) : List Char :=
  subAll tryRetJson id content

/-- Deterministic reading of the quoted legacy error shape, shared by the three
quoted rewrites of replace_old_error_functions; name selects the problem
constructor, repA and repB the replacement pieces. -/
def tryQuotedErr (name repA repB : List Char) (l : List Char) :
    Option (List Char × List Char) := do
  let (_, r1) ← splitLit (str "errorResponse(" ++ name ++ str "(") l
  let (_, r2) ← splitCh quoteChar r1
  let (msgq, r3) ← splitThruP quoteChar r2
  let (_, r4) ← splitLit [','] r3
  let R := r4.takeWhile (fun c => !(c == ')'))
  let r5 := r4.dropWhile (fun c => !(c == ')'))
  if R.isEmpty then none
  else do
    let (_, r6) ← splitLit [')', ')'] r5
    pure (repA ++ msgq.dropLast ++ repB, r6)

/-- Deterministic reading of the unquoted internal-error shape. -/
def tryGenericIse (l : List Char) : Option (List Char × List Char) := do
  let (_, r1) ← splitLit (str "errorResponse(internalServerErrorProblem(") l
  let (_, r2) ← splitThruP (fun c => c == ')') r1
  let (_, r3) ← splitLit [')'] r2
  pure (iseDefault, r3)

/-- Deterministic reading of the legacy success-response shape of
replace_old_error_functions. -/
def trySuccess (l : List Char) : Option (List Char × List Char) := do
  let (_, r1) ← splitLit (str "return successResponse(") l
  let (b, r2) ← splitThruP (fun c => c == ')') r1
  let (_, r3) ← splitLit [';'] r2
  pure (respHdrA ++ b.dropLast ++ respHdrB, r3)

/-- replace_old_error_functions of update-phase1-endpoints.py: the four legacy
error rewrites followed by the success-response rewrite, in source order. -/
def replace_old_error_functions (content : List Char) : List Char :=
  subAll trySuccess id
    (subAll tryGenericIse id
      (subAll (tryQuotedErr (str "internalServerErrorProblem") iseA iseB) id
        (subAll (tryQuotedErr (str "badRequestProblem") brA brB) id
          (subAll (tryQuotedErr (str "notFoundProblem") nfA nfB) id content))))

/-- Body rewrite of add_logging_to_catch: insert the structured log before
console.error when no logResponse call is present in the block. -/
def addLogBody (body : List Char) : List Char :=
  if occursIn (str "logResponse") body then body
  else subAll (splitLit (str "console.error")) (fun _ => logRepl) body

/-- Deterministic reading of the catch-block pattern of add_logging_to_catch. -/
def tryCatch (l : List Char) : Option (List Char × List Char) := do
  let (_, r1) ← splitLit (str "\x7d catch (error") l
  let w := splitRun (fun c => !(c == '\x7b')) r1
  let (_, r2) ← splitLit ['\x7b'] w.2
  let body := r2.takeWhile (fun c => !(c == '\x7d'))
  let rest := r2.dropWhile (fun c => !(c == '\x7d'))
  if occursIn (str "console.error") body then
    pure (catchHead ++ addLogBody body, rest)
  else none

/-- add_logging_to_catch of update-phase1-endpoints.py. -/
def add_logging_to_catch (content : List Char) : List Char :=
  subAll tryCatch id content

/-- The skip guard of update_file: all Phase 1 markers present and no legacy
errorResponse call. -/
def updFileSkip (content : List Char) : Bool :=
  occursIn (str "getRequestId(request)") content &&
  occursIn (str "standardErrorResponse") content &&
  occursIn (str "addStandardHeaders") content &&
  !occursIn (str "errorResponse(") content

/-- One iteration of the method loop of update_file. -/
def methodPass (content m : List Char) : List Char :=
  if occursIn (str "export async function " ++ m) content then
    add_rate_limiting (update_method_handler content m) m
  else content

/-- The pure transformation chain of update_file, in source order. -/
def updateFileChain (content path : List Char) : List Char :=
  let c1 := add_imports content path
  let c2 := replace_old_error_functions c1
  let c3 := methodNames.foldl methodPass c2
  let c4 := add_logging_to_catch c3
  update_response_headers c4

/-- Content-level update_file: the returned flag and the written content, none
when the file is not written. -/
def update_file_on (content path : List Char) : Bool × Option (List Char) :=
  if updFileSkip content then (false, none)
  else
    let out := updateFileChain content path
    if out ≠ content then (true, some out) else (false, none)

/-- The try-block of update_file over the filesystem actions of one file. -/
def update_file_body (f : FileOps) (path : List Char) : Except PyErr Bool := do
  let content ← f.readRes
  if updFileSkip content then pure false
  else
    let out := updateFileChain content path
    if out ≠ content then do
      let _ ← f.writeRes
      pure true
    else pure false

/-- update_file of update-phase1-endpoints.py: the try-block with its
exception handler returning False. -/
def update_file (f : FileOps) (path : List Char) : Bool :=
  match update_file_body f path with
  | .ok b => b
  | .error _ => false

end UpdEp

namespace Phase1

/-- The PHASE1_IMPORTS replacement block of apply-phase1-standards.py. -/
def PHASE1_IMPORTS : List Char := str "import \x7b NextRequest, NextResponse \x7d from \x27next/server\x27;\nimport \x7b query \x7d from \x27@/lib/db\x27;\nimport \x7b\n  parseStandardPaginationParams,\n  parseSortParams,\n  buildStandardListResponse,\n\x7d from \x27@/lib/pagination\x27;\nimport \x7b\n  buildWhereClause,\n  buildSearchClause,\n  buildQuery,\n\x7d from \x27@/lib/query-builder\x27;\nimport \x7b\n  standardErrorResponse,\n  validationErrorResponse,\n  ErrorCodes,\n  addStandardHeaders,\n\x7d from \x27@/lib/response\x27;\nimport \x7b requirePermission \x7d from \x27@/middleware/permissions\x27;\nimport \x7b getRequestId, logRequest, logResponse \x7d from \x27@/middleware/correlation\x27;\nimport \x7b addRateLimitHeaders, globalRateLimitTracker \x7d from \x27@/middleware/rateLimit\x27;\nimport \x7b auditLog, AuditActions, AuditResources \x7d from \x27@/middleware/audit\x27;"

/-- Find the first line-start occurrence of a literal; returns the text before
it and the suffix starting at it. The Boolean argument records whether the
current position begins a line. -/
def findLineStart (pat : List Char) : List Char → Bool → Option (List Char × List Char)
  | [], _ => none
  | c :: cs, atStart =>
    if atStart && startsW pat (c :: cs) then some ([], c :: cs)
    else
      match findLineStart pat cs (c == '\n') with
      | some pr => some (c :: pr.1, pr.2)
      | none => none

/-- Find the first blank-line separator followed by export or a line comment;
returns the part before it and the suffix starting at it.  This is where the
lazy group of the import-section pattern of apply_phase1_imports ends. -/
def breakAtSep : List Char → Option (List Char × List Char)
  | [] => none
  | c :: cs =>
    if startsW (str "\n\nexport") (c :: cs) || startsW (str "\n\n//") (c :: cs) then
      some ([], c :: cs)
    else
      match breakAtSep cs with
      | some pr => some (c :: pr.1, pr.2)
      | none => none

/-- apply_phase1_imports of apply-phase1-standards.py: locate the import
section and replace every occurrence of its text by PHASE1_IMPORTS. -/
def apply_phase1_imports (content : List Char) : List Char :=
  match findLineStart (str "import") content true with
  | none => content
  | some pr =>
    match breakAtSep pr.2 with
    | none => content
    | some qr => subAll (splitLit qr.1) (fun _ => PHASE1_IMPORTS) content

/-- The literal GET-header prefix of add_request_tracking_to_get. -/
def getHead : List Char := str "export async function GET("

/-- The tracking block appended to the GET header. -/
def getTrackIns : List Char := str "\n  const requestId = getRequestId(request);\n  const startTime = Date.now();"

/-- Deterministic reading of the GET-header pattern of
add_request_tracking_to_get: the literal header, a nonempty run up to the
first closing parenthesis, then a space and an opening brace. -/
def tryGetHead (l : List Char) : Option (List Char × List Char) := do
  let (a, r1) ← splitLit getHead l
  let (b, r2) ← splitThruP (fun c => c == ')') r1
  let (c2, r3) ← splitLit (str " \x7b") r2
  pure (a ++ b ++ c2 ++ getTrackIns, r3)

/-- Leading literal of the authorization-destructure pattern. -/
def authA : List Char := str "const \x7b tenantId"

/-- The optional middle of the authorization-destructure pattern. -/
def authOpt : List Char := str ", user"

/-- Trailing literal of the authorization-destructure pattern. -/
def authB : List Char := str " \x7d = authResult;"

/-- The rate-limiting block of add_request_tracking_to_get, appended after the
matched destructure. -/
def artgRL : List Char := str "\n\n    // Rate limiting (100 requests per hour per user)\n    const rateLimit = globalRateLimitTracker.trackRequest(\n      `user_$\x7buser.userId\x7d`,\n      100,\n      3600\n    );\n\n    if (rateLimit.remaining === 0) \x7b\n      const minutesLeft = Math.ceil((rateLimit.reset - Math.floor(Date.now() / 1000)) / 60);\n      return standardErrorResponse(\n        ErrorCodes.RATE_LIMIT_EXCEEDED,\n        `Rate limit exceeded. Try again in $\x7bminutesLeft\x7d minutes.`,\n        429,\n        undefined,\n        requestId\n      );\n    \x7d"

/-- Deterministic reading of the authorization-destructure pattern with its
optional user field. -/
def tryTenantAuth (l : List Char) : Option (List Char × List Char) := do
  let (a, r1) ← splitLit authA l
  match splitLit authOpt r1 with
  | some pr => do
    let (b, r2) ← splitLit authB pr.2
    pure (a ++ pr.1 ++ b ++ artgRL, r2)
  | none => do
    let (b, r2) ← splitLit authB r1
    pure (a ++ b ++ artgRL, r2)

/-- add_request_tracking_to_get of apply-phase1-standards.py: the GET-header
rewrite over the whole content, then a single rate-limiting insertion after
the first authorization destructure. -/
def add_request_tracking_to_get (content : List Char) : List Char :=
  subFirst tryTenantAuth id (subAll tryGetHead id content)

/-- replace_pagination_calls of apply-phase1-standards.py. -/
def replace_pagination_calls (content : List Char) : List Char :=
  subAll (splitLit (str "buildPagedResponse("))
    (fun _ => str "buildStandardListResponse(")
    (subAll (splitLit (str "parsePaginationParams("))
      (fun _ => str "parseStandardPaginationParams(") content)

/-- Replacement pieces of replace_error_responses. -/
def intErrA : List Char := str "standardErrorResponse(ErrorCodes.INTERNAL_ERROR, "

/-- Trailing replacement piece of replace_error_responses. -/
def intErrB : List Char := str ", 500, undefined, requestId)"

/-- Deterministic reading of the legacy internal-error shape matched by
replace_error_responses. -/
def tryIseArtg (l : List Char) : Option (List Char × List Char) := do
  let (a, r1) ← splitLit (str "errorResponse(") l
  let w1 := splitRun wsChar r1
  let (b, r2) ← splitLit (str "internalServerErrorProblem(") w1.2
  let (d, r3) ← splitThruP (fun c => c == ')') r2
  let w2 := splitRun wsChar r3
  let (e, r4) ← splitLit [')'] w2.2
  pure (a ++ w1.1 ++ b ++ d ++ w2.1 ++ e, r4)

/-- First single-quoted nonempty group inside a matched text, the inner search
of the replacement lambda of replace_error_responses. -/
def firstQuoted : List Char → Option (List Char)
  | [] => none
  | c :: cs =>
    if c == '\x27' then
      match splitThruP (fun d => d == '\x27') cs with
      | some pr => some pr.1.dropLast
      | none => firstQuoted cs
    else firstQuoted cs

/-- The replacement lambda of replace_error_responses; raises AttributeError
when the matched text has no single-quoted group. -/
def iseRep (t : List Char) : Except PyErr (List Char) :=
  match firstQuoted t with
  | some msg => .ok (intErrA ++ msg ++ intErrB)
  | none => .error .attributeError

/-- replace_error_responses of apply-phase1-standards.py; the lambda can raise,
so the result is in the exception monad. -/
def replace_error_responses (content : List Char) : Except PyErr (List Char) :=
  subAllEF tryIseArtg iseRep content.length content

/-- The transformation chain of process_file of apply-phase1-standards.py, in
source order. -/
def phase1Chain (content : List Char) : Except PyErr (List Char) := do
  let c1 := apply_phase1_imports content
  let c2 := add_request_tracking_to_get c1
  let c3 := replace_pagination_calls c2
  replace_error_responses c3

/-- Content-level process_file: the flag and the written content; an error is
an exception escaping process_file. -/
def process_file_on (content : List Char) : Except PyErr (Bool × Option (List Char)) := do
  let out ← phase1Chain content
  if out ≠ content then .ok (true, some out) else .ok (false, none)

/-- process_file of apply-phase1-standards.py.  There is no exception handler
in its body, so any exception of the read, the transformation chain or the
write propagates to the caller. -/
def process_file (f : FileOps) : Except PyErr Bool :=
  if !f.present then .ok false
  else do
    let content ← f.readRes
    let out ← phase1Chain content
    if out ≠ content then do
      let _ ← f.writeRes
      .ok true
    else .ok false

/-- The batch loop of main of apply-phase1-standards.py: counts updated files;
an exception escaping process_file aborts the whole loop. -/
def runBatch (fs : List FileOps) : Except PyErr Nat :=
  fs.foldlM (fun acc f => do
    let b ← process_file f
    pure (if b then acc + 1 else acc)) 0

end Phase1

namespace Rbac

/-- RESOURCE_MAP of apply-rbac.py. -/
def RESOURCE_MAP : List (List Char × List Char) := [
  (str "/api/quotations", str "quotations"),
  (str "/api/clients", str "clients"),
  (str "/api/bookings", str "bookings"),
  (str "/api/invoices", str "invoices"),
  (str "/api/reports", str "reports"),
  (str "/api/users", str "users"),
  (str "/api/agents", str "agents"),
  (str "/api/providers", str "providers"),
  (str "/api/hotels", str "providers"),
  (str "/api/guides", str "providers"),
  (str "/api/vehicles", str "providers"),
  (str "/api/restaurants", str "providers"),
  (str "/api/transfers", str "providers"),
  (str "/api/suppliers", str "providers"),
  (str "/api/requests", str "requests"),
  (str "/api/finance", str "finance"),
  (str "/api/admin", str "admin"),
  (str "/api/dashboard", str "dashboard"),
  (str "/api/hotel-pricing", str "pricing"),
  (str "/api/guide-pricing", str "pricing"),
  (str "/api/vehicle-pricing", str "pricing"),
  (str "/api/tour-pricing", str "pricing"),
  (str "/api/entrance-fee-pricing", str "pricing"),
  (str "/api/entrance-fees", str "providers"),
  (str "/api/daily-tours", str "providers"),
  (str "/api/extra-expenses", str "providers")]

/-- METHOD_TO_ACTION of apply-rbac.py, in iteration order. -/
def METHOD_TO_ACTION : List (List Char × List Char) := [
  (str "GET", str "read"),
  (str "POST", str "create"),
  (str "PUT", str "update"),
  (str "PATCH", str "update"),
  (str "DELETE", str "delete")]

/-- SKIP_PATHS of apply-rbac.py. -/
def SKIP_PATHS : List (List Char) :=
  [str "/api/auth", str "/api/health", str "/api/roles", str "/api/audit-logs"]

/-- Rest of the list after the first occurrence of a literal. -/
def afterFirst (pat : List Char) : List Char → Option (List Char)
  | [] => (splitLit pat []).map (fun pr => pr.2)
  | c :: cs =>
    match splitLit pat (c :: cs) with
    | some pr => some pr.2
    | none => afterFirst pat cs

/-- get_resource_from_path of apply-rbac.py: the segment after the first /api/
up to the next slash, the skip check by substring, then the resource map. -/
def get_resource_from_path (path : List Char) : Option (List Char) :=
  if occursIn (str "/api/") path then
    match afterFirst (str "/api/") path with
    | none => none
    | some rest =>
      let seg := rest.takeWhile (fun c => !(c == '/'))
      let api_path := str "/api/" ++ seg
      if SKIP_PATHS.any (fun s => occursIn s api_path) then none
      else (RESOURCE_MAP.find? (fun p => p.1 == api_path)).map (fun p => p.2)
  else none

/-- should_replace_tenant of apply-rbac.py. -/
def should_replace_tenant (content : List Char) : Bool :=
  occursIn (str "requireTenant") content

/-- The import line inserted for requirePermission. -/
def permImportLine : List Char := str "import \x7b requirePermission \x7d from \x27@/middleware/permissions\x27;"

/-- The same import line followed by a newline, as inserted by add_import. -/
def permImportNL : List Char := str "import \x7b requirePermission \x7d from \x27@/middleware/permissions\x27;\n"

/-- Deterministic reading of the tenancy-import pattern of replace_import. -/
def tryTenancyImport (l : List Char) : Option (List Char × List Char) := do
  let (_, r1) ← splitLit (str "import") l
  let (_, r2) ← splitRun1 wsChar r1
  let (_, r3) ← splitLit ['\x7b'] r2
  let w := splitRun wsChar r3
  let (_, r4) ← splitLit (str "requireTenant") w.2
  let w2 := splitRun wsChar r4
  let (_, r5) ← splitLit ['\x7d'] w2.2
  let (_, r6) ← splitRun1 wsChar r5
  let (_, r7) ← splitLit (str "from") r6
  let (_, r8) ← splitRun1 wsChar r7
  let (_, r9) ← splitCh quoteChar r8
  let (_, r10) ← splitLit (str "@/middleware/tenancy") r9
  let (_, r11) ← splitCh quoteChar r10
  let r12 := match splitLit [';'] r11 with
    | some pr => pr.2
    | none => r11
  pure (permImportLine, r12)

/-- replace_import of apply-rbac.py. -/
def replace_import (content : List Char) : List Char :=
  subAll tryTenancyImport id content

/-- Part of the at-import pattern of add_import after the closing quote: an
optional semicolon, then a whitespace star that must end with a newline; the
greedy star makes the match end just after the last newline of the run.
Returns consumed text and rest. -/
def impTailNL (l : List Char) : Option (List Char × List Char) :=
  let r1 := match splitLit [';'] l with
    | some pr => pr.2
    | none => l
  let semi : List Char := if r1.length = l.length then [] else [';']
  let w := r1.takeWhile wsChar
  let rest0 := r1.dropWhile wsChar
  let tailNoNl := w.reverse.takeWhile (fun c => !(c == '\n'))
  if occursIn ['\n'] w then
    some (semi ++ w.take (w.length - tailNoNl.length),
          tailNoNl.reverse ++ rest0)
  else none

/-- Deterministic reading of the at-import pattern of add_import: an import
statement whose module begins with the at-alias. -/
def tryAtImport (l : List Char) : Option (List Char × List Char) := do
  let (a1, r1) ← splitLit (str "import") l
  let (a2, r2) ← splitRun1 wsChar r1
  let (a3, r3) ← splitLit ['\x7b'] r2
  let (a4, r4) ← splitThruP (fun c => c == '\x7d') r3
  let (a5, r5) ← splitRun1 wsChar r4
  let (a6, r6) ← splitLit (str "from") r5
  let (a7, r7) ← splitRun1 wsChar r6
  let (a8, r8) ← splitCh quoteChar r7
  let (a9, r9) ← splitLit (str "@/") r8
  let (a10, r10) ← splitThruP quoteChar r9
  let (a11, r11) ← impTailNL r10
  pure (a1 ++ a2 ++ a3 ++ a4 ++ a5 ++ a6 ++ a7 ++ a8 ++ a9 ++ a10 ++ a11, r11)

/-- add_import of apply-rbac.py: insert the permission import after the last
at-import when requirePermission is absent. -/
def add_import (content : List Char) : List Char :=
  if !occursIn (str "requirePermission") content then
    match lastHitSplit tryAtImport content with
    | some pr => pr.1 ++ permImportNL ++ pr.2
    | none => content
  else content

/-- Deterministic reading of the method-header pattern of
replace_auth_in_method, including its trailing run up to the next opening
brace; the end of the consumed text is where the authorization search starts. -/
def tryMethodHead (m : List Char) (l : List Char) : Option (List Char × List Char) := do
  let (a1, r1) ← splitLit (str "export") l
  let (a2, r2) ← splitRun1 wsChar r1
  let (a3, r3) ← splitLit (str "async") r2
  let (a4, r4) ← splitRun1 wsChar r3
  let (a5, r5) ← splitLit (str "function") r4
  let (a6, r6) ← splitRun1 wsChar r5
  let (a7, r7) ← splitLit m r6
  let w1 := splitRun wsChar r7
  let (a8, r8) ← splitLit ['('] w1.2
  let (a9, r9) ← splitToP (fun c => c == ')') r8
  let w2 := splitRun wsChar r9
  let (a10, r10) ← splitLit ['\x7b'] w2.2
  let tail := r10.takeWhile (fun c => !(c == '\x7b'))
  let rest := r10.dropWhile (fun c => !(c == '\x7b'))
  pure (a1 ++ a2 ++ a3 ++ a4 ++ a5 ++ a6 ++ a7 ++ w1.1 ++ a8 ++ a9 ++ w2.1 ++ a10 ++ tail, rest)

/-- A maximal word run that ends in Result with at least one character before
it, the reading of the word-star Result piece of the authorization pattern;
returns the rest. -/
def tryResultWord (l : List Char) : Option (List Char) :=
  let w := splitRun wordChar l
  if endsW (str "Result") w.1 && decide (7 ≤ w.1.length) then some w.2 else none

/-- From a position just after an opening quote: the literal error, a closing
quote, whitespace, in, whitespace and a word run ending in Result. -/
def tryErrInResult (cs : List Char) : Option (List Char) := do
  let (_, r1) ← splitLit (str "error") cs
  let (_, r2) ← splitCh quoteChar r1
  let (_, r3) ← splitRun1 wsChar r2
  let (_, r4) ← splitLit (str "in") r3
  let (_, r5) ← splitRun1 wsChar r4
  tryResultWord r5

/-- Scan inside the parenthesised condition for a quoted error tag followed by
in and a Result word, never crossing a closing parenthesis; all viable quote
choices continue to the same closing parenthesis, so the first viable one is
taken. -/
def findErrTag : List Char → Option (List Char)
  | [] => none
  | c :: cs =>
    if c == ')' then none
    else
      match (if quoteChar c then tryErrInResult cs else none) with
      | some r => some r
      | none => findErrTag cs

/-- The destructure continuation after the literal const: whitespace, an
opening brace, the captured fields, a closing brace, an equals sign and a word
run ending in Result with an optional semicolon; returns capture and rest. -/
def tryConstCont (l : List Char) : Option (List Char × List Char) := do
  let w1 := splitRun wsChar l
  let (_, r1) ← splitLit ['\x7b'] w1.2
  let (_, vars, r2) ← splitWsCap (fun c => c == '\x7d') r1
  let (_, r3) ← splitLit ['\x7d'] r2
  let w3 := splitRun wsChar r3
  let (_, r4) ← splitLit ['='] w3.2
  let w4 := splitRun wsChar r4
  let r5 ← tryResultWord w4.2
  let r6 := match splitLit [';'] r5 with
    | some pr => pr.2
    | none => r5
  pure (vars, r6)

/-- Scan for the last viable const destructure before the next closing brace,
the greedy reading of the brace-free star before const in the authorization
pattern. -/
def scanConst : List Char → Option (List Char × List Char)
  | [] => none
  | c :: cs =>
    if c == '\x7d' then none
    else
      let here := if startsW (str "const") (c :: cs) then tryConstCont ((c :: cs).drop 5) else none
      match scanConst cs with
      | some pr => some pr
      | none => here

/-- Deterministic reading of the whole authorization pattern of
replace_auth_in_method; returns the captured destructured fields and the rest
after the match. -/
def tryAuthFull (l : List Char) : Option (List Char × List Char) := do
  let (_, r1) ← splitLit (str "const") l
  let (_, r2) ← splitRun1 wsChar r1
  let r3 ← tryResultWord r2
  let w1 := splitRun wsChar r3
  let (_, r4) ← splitLit ['='] w1.2
  let w2 := splitRun wsChar r4
  let (_, r5) ← splitLit (str "await") w2.2
  let (_, r6) ← splitRun1 wsChar r5
  let (_, r7) ← splitLit (str "requireTenant(request)") r6
  let r8 := match splitLit [';'] r7 with
    | some pr => pr.2
    | none => r7
  let w3 := splitRun wsChar r8
  let (_, r9) ← splitLit (str "if") w3.2
  let w4 := splitRun wsChar r9
  let (_, r10) ← splitLit ['('] w4.2
  let r11 ← findErrTag r10
  let (_, r12) ← splitToP (fun c => c == ')') r11
  let w5 := splitRun wsChar r12
  let (_, r13) ← splitLit ['\x7b'] w5.2
  let (_, r14) ← splitThruP (fun c => c == '\x7d') r13
  scanConst r14

/-- Leftmost authorization match: returns the text before the match, the
captured fields and the rest after the match. -/
def searchAuth : List Char → Option (List Char × List Char × List Char)
  | [] => none
  | c :: cs =>
    match tryAuthFull (c :: cs) with
    | some pr => some ([], pr.1, pr.2)
    | none =>
      match searchAuth cs with
      | some pr => some (c :: pr.1, pr.2.1, pr.2.2)
      | none => none

/-- Replacement pieces of replace_auth_in_method. -/
def replA : List Char := str "const authResult = await requirePermission(request, \x27"

/-- Piece between resource and action. -/
def replB : List Char := str "\x27, \x27"

/-- Piece between the action and the preserved fields. -/
def replC : List Char := str "\x27);\n    if (\x27error\x27 in authResult) \x7b\n      return authResult.error;\n    \x7d\n    const \x7b "

/-- Trailing replacement piece. -/
def replD : List Char := str " \x7d = authResult;"

/-- The replacement block built by replace_auth_in_method. -/
def authRepl (resource action vars : List Char) : List Char :=
  replA ++ resource ++ replB ++ action ++ replC ++ vars ++ replD

/-- replace_auth_in_method of apply-rbac.py: find the method header, then the
first legacy authorization block after it, and splice the permission-checked
replacement over that block. -/
def replace_auth_in_method (content m resource action : List Char) : List Char :=
  match searchSplit (tryMethodHead m) content with
  | none => content
  | some pr =>
    match searchAuth pr.2 with
    | none => content
    | some qr => pr.1 ++ qr.1 ++ authRepl resource action qr.2.1 ++ qr.2.2

/-- The method loop of process_file of apply-rbac.py. -/
def methodLoop (content resource : List Char) : List Char :=
  METHOD_TO_ACTION.foldl (fun c p =>
    if occursIn (str "export async function " ++ p.1 ++ str "(") c then
      replace_auth_in_method c p.1 resource p.2
    else c) content

/-- The content transformation of process_file of apply-rbac.py. -/
def rbacChain (content resource : List Char) : List Char :=
  let c1 := if should_replace_tenant content then replace_import content
            else add_import content
  methodLoop c1 resource

/-- The try-block of process_file of apply-rbac.py. -/
def process_file_body (f : FileOps) (resource : List Char) : Except PyErr Bool := do
  let content ← f.readRes
  let out := rbacChain content resource
  if out ≠ content then do
    let _ ← f.writeRes
    .ok true
  else .ok false

/-- process_file of apply-rbac.py: every exception of the try-block is caught
and reported as a False outcome for this file only. -/
def process_file (f : FileOps) (resource : List Char) : Bool :=
  match process_file_body f resource with
  | .ok b => b
  | .error _ => false

/-- Per-task outcome of the main loop of apply-rbac.py. -/
inductive Outcome
  | skipped
  | updated
  | notUpdated
deriving DecidableEq

/-- One iteration of the main loop: skip-listed or unmapped paths are only
reported, others are processed. -/
def runTask (t : List Char × FileOps) : Outcome :=
  match get_resource_from_path t.1 with
  | none => .skipped
  | some r => if process_file t.2 r then .updated else .notUpdated

/-- The main loop of apply-rbac.py over its discovered route files. -/
def runBatch (ts : List (List Char × FileOps)) : List Outcome := ts.map runTask

end Rbac

namespace Mig

/-- The fixed response-import replacement of update_imports of
migrate-endpoints.py. -/
def respImportFix : List Char := str "from \x27@/lib/response\x27 import \x7b standardErrorResponse, notFoundErrorResponse, validationErrorResponse, ErrorCodes \x7d"

/-- The correlation import appended after the last import line. -/
def corrImportNL : List Char := str "import \x7b getRequestId, logResponse \x7d from \x27@/middleware/correlation\x27;\n"

/-- The legacy next/server import replaced to also bring NextResponse. -/
def nextReqNew : List Char := str "import \x7b NextRequest, NextResponse \x7d from \x27next/server\x27"

/-- The correlation block inserted into each handler. -/
def handlerIns : List Char := str "\n  const requestId = getRequestId(request);\n  const startTime = Date.now();"

/-- Comma split of an import list, Python str.split on a comma. -/
def splitCommas (l : List Char) : List (List Char) := List.splitOn ',' l

/-- The per-name rewrite of update_pagination_imports; none drops the name. -/
def pagRename (imp : List Char) : Option (List Char) :=
  if occursIn (str "parsePaginationParams") imp then some (str "parseStandardPaginationParams")
  else if occursIn (str "buildPagedResponse") imp then some (str "buildStandardListResponse")
  else if trimBoth imp ≠ str "parseStandardPaginationParams"
       && trimBoth imp ≠ str "buildStandardListResponse" then some (trimBoth imp)
  else none

/-- Order-preserving removal of duplicates, keeping first occurrences, the
seen-set loop of update_pagination_imports. -/
def dedupKeepFirst (l : List (List Char)) : List (List Char) :=
  l.foldl (fun acc x => if acc.contains x then acc else acc ++ [x]) []

/-- update_pagination_imports of migrate-endpoints.py as a list of names. -/
def update_pagination_imports_list (s : List Char) : List (List Char) :=
  dedupKeepFirst (((splitCommas s).map trimBoth).filterMap pagRename)

/-- update_pagination_imports of migrate-endpoints.py. -/
def update_pagination_imports (s : List Char) : List Char :=
  List.intercalate (str ", ") (update_pagination_imports_list s)

/-- Deterministic reading of the pagination from-import pattern of
update_imports, with its capture rewritten by update_pagination_imports. -/
def tryPagFrom (l : List Char) : Option (List Char × List Char) := do
  let (_, r1) ← splitLit (str "from ") l
  let (_, r2) ← splitCh quoteChar r1
  let (_, r3) ← splitLit (str "@/lib/pagination") r2
  let (_, r4) ← splitCh quoteChar r3
  let (_, r5) ← splitLit (str " import ") r4
  let (_, r6) ← splitLit ['\x7b'] r5
  let (cap, r7) ← splitThruP (fun c => c == '\x7d') r6
  pure (str "from \x27@/lib/pagination\x27 import \x7b " ++
        update_pagination_imports cap.dropLast ++ str " \x7d", r7)

/-- Deterministic reading of the response from-import pattern of
update_imports, replaced by the fixed import list. -/
def tryRespFrom (l : List Char) : Option (List Char × List Char) := do
  let (_, r1) ← splitLit (str "from ") l
  let (_, r2) ← splitCh quoteChar r1
  let (_, r3) ← splitLit (str "@/lib/response") r2
  let (_, r4) ← splitCh quoteChar r3
  let (_, r5) ← splitLit (str " import ") r4
  let (_, r6) ← splitLit ['\x7b'] r5
  let (_, r7) ← splitThruP (fun c => c == '\x7d') r6
  pure (respImportFix, r7)

/-- Tail of the import-line pattern of update_imports after the opening quote:
a nonempty quote-free run that must end in a space, the closing quote, an
optional semicolon and a newline.  Returns consumed text and rest. -/
def tryFromTail (l : List Char) : Option (List Char × List Char) := do
  let (q1, r1) ← splitCh quoteChar l
  let R := r1.takeWhile (fun c => !(quoteChar c))
  let r2 := r1.dropWhile (fun c => !(quoteChar c))
  if decide (2 ≤ R.length) && endsW (str " ") R then
    match r2 with
    | q :: r3 =>
      let semiTaken := startsW [';'] r3
      let r4 := if semiTaken then r3.drop 1 else r3
      match splitLit ['\n'] r4 with
      | some pr => some (q1 ++ R ++ [q] ++ (if semiTaken then [';'] else []) ++ pr.1, pr.2)
      | none => none
    | [] => none
  else none

/-- Greedy scan of the dot star before the literal from in the import-line
pattern: longer runs are preferred, the run never crosses a newline. -/
def scanDotFrom0 : List Char → Option (List Char × List Char)
  | [] => none
  | c :: cs =>
    let deeper :=
      if c == '\n' then none
      else
        match scanDotFrom0 cs with
        | some pr => some (c :: pr.1, pr.2)
        | none => none
    match deeper with
    | some pr => some pr
    | none =>
      match splitLit (str " from ") (c :: cs) with
      | some pr =>
        match tryFromTail pr.2 with
        | some qr => some (pr.1 ++ qr.1, qr.2)
        | none => none
      | none => none

/-- Deterministic reading of the whole import-line pattern of the correlation
branch of update_imports. -/
def tryImpFromM (l : List Char) : Option (List Char × List Char) := do
  let (h, r1) ← splitLit (str "import ") l
  match r1 with
  | [] => none
  | c :: cs =>
    if c == '\n' then none
    else
      match scanDotFrom0 cs with
      | some pr => some (h ++ c :: pr.1, pr.2)
      | none => none

/-- Deterministic reading of the bare NextRequest import pattern. -/
def tryNextReq (l : List Char) : Option (List Char × List Char) := do
  let (_, r1) ← splitLit (str "import \x7b NextRequest \x7d from ") l
  let (_, r2) ← splitCh quoteChar r1
  let (_, r3) ← splitLit (str "next/server") r2
  let (_, r4) ← splitCh quoteChar r3
  pure (nextReqNew, r4)

/-- update_imports of migrate-endpoints.py, in source order. -/
def update_imports (content : List Char) : List Char :=
  let c1 := subAll tryPagFrom id content
  let c2 := subAll tryRespFrom id c1
  let c3 :=
    if !occursIn (str "from \x27@/middleware/correlation\x27") c2 then
      match (hitsOf tryImpFromM c2).getLast? with
      | some last => subAll (splitLit last) (fun t => t ++ corrImportNL) c2
      | none => c2
    else c2
  if !occursIn (str "NextResponse") c3 && occursIn (str "from \x27next/server\x27") c3 then
    subAll tryNextReq id c3
  else c3

/-- Deterministic reading of the handler-header pattern of
add_request_correlation_to_handler. -/
def tryHandlerHead (m : List Char) (l : List Char) : Option (List Char × List Char) := do
  let (a, r1) ← splitLit (str "export async function " ++ m ++ str "(") l
  let (b, r2) ← splitThruP (fun c => c == ')') r1
  let w := splitRun wsChar r2
  let (c2, r3) ← splitLit ['\x7b'] w.2
  pure (a ++ b ++ w.1 ++ c2 ++ handlerIns, r3)

/-- add_request_correlation_to_handler of migrate-endpoints.py. -/
def add_request_correlation_to_handler (content m : List Char) : List Char :=
  if occursIn (str "const requestId = getRequestId(request)") content then content
  else subAll (tryHandlerHead m) id content

/-- The literal legacy tenant-error return of update_error_responses. -/
def tenantOld : List Char := str "return errorResponse(tenantResult.error)"

/-- Its standardized replacement. -/
def tenantNew : List Char := str "return standardErrorResponse(\n        ErrorCodes.AUTHENTICATION_REQUIRED,\n        tenantResult.error.detail || \x27Authentication required\x27,\n        tenantResult.error.status,\n        undefined,\n        requestId\n      )"

/-- Replacement pieces of the not-found rewrite. -/
def nfA : List Char := str "return notFoundErrorResponse(\x27"

/-- Not-found trailing piece. -/
def nfB : List Char := str "\x27, requestId)"

/-- Deterministic reading of the not-found pattern of update_error_responses:
a quoted message that ends in not found, with an optional second argument. -/
def tryNfMig (l : List Char) : Option (List Char × List Char) := do
  let (_, r1) ← splitLit (str "return errorResponse(notFoundProblem(") l
  let (_, r2) ← splitCh quoteChar r1
  let R := r2.takeWhile (fun c => !(quoteChar c))
  let r3 := r2.dropWhile (fun c => !(quoteChar c))
  if endsW (str " not found") R && decide (11 ≤ R.length) then
    match r3 with
    | _ :: r4 =>
      match splitLit (str ", ") r4 with
      | some pr => do
        let (_, r6) ← splitThruP (fun c => c == ')') pr.2
        let (_, r7) ← splitLit [')'] r6
        pure (nfA ++ R ++ nfB, r7)
      | none => do
        let (_, r7) ← splitLit [')', ')'] r4
        pure (nfA ++ R ++ nfB, r7)
    | [] => none
  else none

/-- Replacement pieces of the internal-error rewrite. -/
def iseA : List Char := str "return standardErrorResponse(\n      ErrorCodes.INTERNAL_ERROR,\n      "

/-- Internal-error trailing piece. -/
def iseB : List Char := str ",\n      500,\n      undefined,\n      requestId\n    )"

/-- The inner search of extract_error_message: a quoted first argument of the
internal-error constructor; returns the message. -/
def tryIseInner (l : List Char) : Option (List Char) := do
  let (_, r1) ← splitLit (str "internalServerErrorProblem(") l
  let (_, r2) ← splitCh quoteChar r1
  let (mq, _) ← splitThruP quoteChar r2
  pure mq.dropLast

/-- Leftmost quoted message inside a matched internal-error text. -/
def searchIseMsg : List Char → Option (List Char)
  | [] => none
  | c :: cs =>
    match tryIseInner (c :: cs) with
    | some m => some m
    | none => searchIseMsg cs

/-- extract_error_message of migrate-endpoints.py: the quoted message when
present, otherwise the fixed fallback, both with quotes. -/
def extract_error_message (t : List Char) : List Char :=
  match searchIseMsg t with
  | some m => ['\x27'] ++ m ++ ['\x27']
  | none => str "\x27An error occurred\x27"

/-- Deterministic reading of the internal-error pattern of
update_error_responses, rewritten through extract_error_message. -/
def tryIseMig (l : List Char) : Option (List Char × List Char) := do
  let (a, r1) ← splitLit (str "return errorResponse(") l
  let w1 := splitRun wsChar r1
  let (b, r2) ← splitLit (str "internalServerErrorProblem(") w1.2
  let (d, r3) ← splitThruP (fun c => c == ')') r2
  let w2 := splitRun wsChar r3
  let (e, r4) ← splitLit [')'] w2.2
  pure (iseA ++ extract_error_message (a ++ w1.1 ++ b ++ d ++ w2.1 ++ e) ++ iseB, r4)

/-- Replacement pieces of the success-response rewrite. -/
def succA : List Char := str "NextResponse.json("

/-- Success-response trailing piece. -/
def succB : List Char := str ");\n    response.headers.set(\x27X-Request-Id\x27, requestId);\n    return response"

/-- Deterministic reading of the success-response pattern, whose argument may
contain neither a comma nor a parenthesis. -/
def trySuccMig (l : List Char) : Option (List Char × List Char) := do
  let (_, r1) ← splitLit (str "return successResponse(") l
  let (g, r2) ← splitThruP (fun c => c == ',' || c == ')') r1
  if endsW (str ")") g then pure (succA ++ g.dropLast ++ succB, r2) else none

/-- update_error_responses of migrate-endpoints.py, in source order. -/
def update_error_responses (content : List Char) : List Char :=
  subAll trySuccMig id
    (subAll tryIseMig id
      (subAll tryNfMig id
        (subAll (splitLit tenantOld) (fun _ => tenantNew) content)))

/-- Replacement pieces of the paged-response rewrite. -/
def bprA : List Char := str "buildStandardListResponse("

/-- Paged-response trailing piece appending the two new arguments. -/
def bprB : List Char := str ", baseUrl, appliedFilters)"

/-- Deterministic reading of the four-argument buildPagedResponse pattern of
update_pagination_calls. -/
def tryBpr (l : List Char) : Option (List Char × List Char) := do
  let (_, r1) ← splitLit (str "buildPagedResponse(") l
  let (g1, r2) ← splitThruP (fun c => c == ',') r1
  let (_, g2, r3) ← splitWsCap (fun c => c == ',') r2
  let (_, r3b) ← splitLit [','] r3
  let (_, g3, r4) ← splitWsCap (fun c => c == ',') r3b
  let (_, r4b) ← splitLit [','] r4
  let (_, g4, r5) ← splitWsCap (fun c => c == ')') r4b
  let (_, r6) ← splitLit [')'] r5
  pure (bprA ++ g1.dropLast ++ str ", " ++ g2 ++ str ", " ++ g3 ++ str ", " ++ g4 ++ bprB, r6)

/-- update_pagination_calls of migrate-endpoints.py. -/
def update_pagination_calls (content : List Char) : List Char :=
  subAll tryBpr id
    (subAll (splitLit (str "parsePaginationParams("))
      (fun _ => str "parseStandardPaginationParams(") content)

/-- The already-migrated guard of migrate_endpoint. -/
def migGuard (content : List Char) : Bool :=
  occursIn (str "parseStandardPaginationParams") content ||
  occursIn (str "getRequestId") content

/-- The transformation chain of migrate_endpoint, in source order. -/
def migChain (content : List Char) : List Char :=
  let c1 := update_imports content
  let c2 := methodNames.foldl (fun c m =>
    if occursIn (str "export async function " ++ m) c then
      add_request_correlation_to_handler c m
    else c) c1
  let c3 := update_pagination_calls c2
  update_error_responses c3

/-- Content-level migrate_endpoint: the returned flag and the written content,
none when nothing is written. -/
def migrate_endpoint_on (content : List Char) : Bool × Option (List Char) :=
  if migGuard content then (true, none)
  else
    let out := migChain content
    if out ≠ content then (true, some out) else (true, none)

/-- The try-block of migrate_endpoint over the filesystem actions of one file. -/
def migrate_endpoint_body (f : FileOps) : Except PyErr Bool := do
  let content ← f.readRes
  if migGuard content then pure true
  else
    let out := migChain content
    if out ≠ content then do
      let _ ← f.writeRes
      pure true
    else pure true

/-- migrate_endpoint of migrate-endpoints.py: a missing file returns False
before the try-block; every exception of the try-block is caught and returns
False for this file only. -/
def migrate_endpoint (f : FileOps) : Bool :=
  if !f.present then false
  else
    match migrate_endpoint_body f with
    | .ok b => b
    | .error _ => false

end Mig

/-! Concrete file contents used by the claim theorems and witnesses. -/

/-- A GET handler with no authorization destructure, input of the idempotence
counterexample. -/
def cGet : List Char := str "export async function GET(request: NextRequest) \x7b\n  return x;\n\x7d\n"

/-- A file whose GET and POST handlers both carry the legacy tenant-only
authorization block. -/
def cTwoHandlers : List Char := str "export async function GET(request: NextRequest) \x7b\n  const authResult = await requireTenant(request);\n  if (\x27error\x27 in authResult) \x7b\n    return authResult.error;\n  \x7d\n  const \x7b tenantId, user \x7d = authResult;\n  return NextResponse.json(\x7b ok: true \x7d);\n\x7d\n\nexport async function POST(request: NextRequest) \x7b\n  const authResult = await requireTenant(request);\n  if (\x27error\x27 in authResult) \x7b\n    return authResult.error;\n  \x7d\n  const \x7b tenantId \x7d = authResult;\n  return NextResponse.json(\x7b ok: true \x7d);\n\x7d\n"

/-- The output of the apply-rbac content transformation on cTwoHandlers with
resource clients: the GET block is left legacy and the POST block receives the
read action of GET. -/
def cTwoExpected : List Char := str "export async function GET(request: NextRequest) \x7b\n  const authResult = await requireTenant(request);\n  if (\x27error\x27 in authResult) \x7b\n    return authResult.error;\n  \x7d\n  const \x7b tenantId, user \x7d = authResult;\n  return NextResponse.json(\x7b ok: true \x7d);\n\x7d\n\nexport async function POST(request: NextRequest) \x7b\n  const authResult = await requirePermission(request, \x27clients\x27, \x27read\x27);\n    if (\x27error\x27 in authResult) \x7b\n      return authResult.error;\n    \x7d\n    const \x7b tenantId  \x7d = authResult;\n  return NextResponse.json(\x7b ok: true \x7d);\n\x7d\n"

/-- A file containing the legacy tenant-only authorization, a legacy not-found
error with the message Hotel not found, an inline json return and a logging
catch block, the pipeline scenario input. -/
def cHotel : List Char := str "import \x7b NextRequest, NextResponse \x7d from \x27next/server\x27;\n\nexport async function GET(request: NextRequest) \x7b\n  const authResult = await requireAuth(request);\n  if (\x27error\x27 in authResult) \x7b\n    return authResult.error;\n  \x7d\n  const \x7b tenantId, user \x7d = authResult;\n  const hotel = await getHotel();\n  if (!hotel) \x7b\n    return errorResponse(notFoundProblem(\x27Hotel not found\x27, instance));\n  \x7d\n  try \x7b\n    return NextResponse.json(hotel);\n  \x7d catch (error) \x7b\n    console.error(error);\n  \x7d\n\x7d\n"

/-- The path used for the pipeline scenario. -/
def pHotel : List Char := str "src/app/api/hotels/[id]/route.ts"

/-- The legacy not-found construction with the message Hotel not found. -/
def legacyNF : List Char := str "errorResponse(notFoundProblem(\x27Hotel not found\x27, instance))"

/-- The standardized not-found call produced by replace_old_error_functions. -/
def targetNF : List Char := str "standardErrorResponse(ErrorCodes.NOT_FOUND, \x27Hotel not found\x27, 404, undefined, requestId)"

/-- A legacy not-found return statement, the input given to the
migrate-endpoints pipeline. -/
def cHotelMig : List Char := str "return errorResponse(notFoundProblem(\x27Hotel not found\x27, instance));"

/-- The migrate-endpoints output for cHotelMig. -/
def cHotelMigOut : List Char := str "return notFoundErrorResponse(\x27Hotel not found\x27, requestId);"

/-- A file that already imports getRequestId from another module while
logResponse is absent. -/
def cDup : List Char := str "import \x7b getRequestId \x7d from \x27@/x\x27;\nexport const a = 1;"

/-- The path of a list endpoint. -/
def pList : List Char := str "src/app/api/clients/route.ts"

/-- A file already containing a rate-check call together with an authorization
destructure. -/
def cTrack : List Char := str "const \x7b tenantId \x7d = authResult;\nglobalRateLimitTracker.trackRequest(x);\n"

/-- A destructure followed by further text, the rate-limit insertion witness. -/
def cDestr : List Char := str "const \x7b tenantId, user \x7d = authResult;\nrest"

/-- A file containing only a legacy four-argument paged-response call. -/
def cBpr : List Char := str "buildPagedResponse(a, b, c, d)"

/-- A file containing getRequestId and a further legacy pagination call, the
early-exit witness of migrate_endpoint. -/
def cMigGuard : List Char := str "const x = getRequestId(r);\nbuildPagedResponse(a, b, c, d);\n"

/-- A file task whose transformation raises, because the legacy internal-error
call carries no quoted message. -/
def fBad : FileOps :=
  FileOps.mk true (Except.ok (str "errorResponse(internalServerErrorProblem(x))")) (Except.ok ())

/-- A healthy file task. -/
def fGood : FileOps := FileOps.mk true (Except.ok (str "good")) (Except.ok ())

/-- A file task whose read raises. -/
def fReadErr : FileOps := FileOps.mk true (Except.error PyErr.ioError) (Except.ok ())

/-- A route path below the auth segment of the skip list. -/
def pAuth : List Char := str "src/app/api/auth/login/route.ts"

/-! From here on: lemmas and theorems.  All definitions are above. -/

theorem startsW_iff {p l : List Char} : startsW p l = true ↔ ∃ t, l = p ++ t := by
  induction p generalizing l with
  | nil => simp [startsW]
  | cons x xs ih =>
    cases l with
    | nil => simp [startsW]
    | cons c cs =>
      simp only [startsW, Bool.and_eq_true, beq_iff_eq, ih, List.cons_append]
      constructor
      · rintro ⟨hx, t, ht⟩
        exact ⟨t, by rw [hx, ht]⟩
      · rintro ⟨t, ht⟩
        injection ht with h1 h2
        exact ⟨h1.symm, t, h2⟩

theorem occursIn_iff {p l : List Char} : occursIn p l = true ↔ ∃ a b, l = a ++ p ++ b := by
  induction l with
  | nil =>
    simp only [occursIn, startsW_iff]
    constructor
    · rintro ⟨t, ht⟩
      exact ⟨[], t, by simpa using ht⟩
    · rintro ⟨a, b, hab⟩
      have := hab.symm
      rcases List.append_eq_nil.mp (List.append_eq_nil.mp this).1 with ⟨h1, h2⟩
      exact ⟨b, by simp [h2, (List.append_eq_nil.mp this).2]⟩
  | cons c cs ih =>
    simp only [occursIn, Bool.or_eq_true, startsW_iff, ih]
    constructor
    · rintro (⟨t, ht⟩ | ⟨a, b, hab⟩)
      · exact ⟨[], t, by simpa using ht⟩
      · exact ⟨c :: a, b, by simp [hab]⟩
    · rintro ⟨a, b, hab⟩
      cases a with
      | nil => exact Or.inl ⟨b, by simpa using hab⟩
      | cons a0 as =>
        injection hab with h1 h2
        exact Or.inr ⟨as, b, h2⟩

theorem occursIn_append_left {p x : List Char} (y : List Char)
    (h : occursIn p x = true) : occursIn p (x ++ y) = true := by
  rcases occursIn_iff.mp h with ⟨a, b, hab⟩
  exact occursIn_iff.mpr ⟨a, b ++ y, by simp [hab]⟩

theorem occursIn_append_right {p y : List Char} (x : List Char)
    (h : occursIn p y = true) : occursIn p (x ++ y) = true := by
  rcases occursIn_iff.mp h with ⟨a, b, hab⟩
  exact occursIn_iff.mpr ⟨x ++ a, b, by simp [hab]⟩

theorem occursIn_of_startsW {p l : List Char} (h : startsW p l = true) :
    occursIn p l = true := by
  rcases startsW_iff.mp h with ⟨t, ht⟩
  exact occursIn_iff.mpr ⟨[], t, by simpa using ht⟩

theorem splitLit_self (p r : List Char) : splitLit p (p ++ r) = some (p, r) := by
  induction p with
  | nil => rfl
  | cons x xs ih => simp [splitLit, ih]

theorem splitLit_sound {p l : List Char} {pr : List Char × List Char}
    (h : splitLit p l = some pr) : pr.1 = p ∧ l = p ++ pr.2 := by
  induction p generalizing l pr with
  | nil =>
    simp only [splitLit, Option.some.injEq] at h
    simp [← h]
  | cons x xs ih =>
    cases l with
    | nil => cases h
    | cons c cs =>
      simp only [splitLit] at h
      by_cases hx : x = c
      · subst hx
        rw [if_pos (by simp)] at h
        cases hsub : splitLit xs cs with
        | none => rw [hsub] at h; cases h
        | some qr =>
          rw [hsub] at h
          rcases ih hsub with ⟨h1, h2⟩
          injection h with h3
          refine ⟨by rw [← h3, h1], ?_⟩
          rw [← h3]
          simp [h2, h1]
      · rw [if_neg (fun hc => hx (by simpa using hc))] at h
        cases h

theorem splitToP_complete {stop : Char → Bool} {a : List Char} {s : Char} (r : List Char)
    (ha : ∀ c ∈ a, stop c = false) (hs : stop s = true) :
    splitToP stop (a ++ s :: r) = some (a ++ [s], r) := by
  induction a with
  | nil => simp [splitToP, hs]
  | cons c cs ih =>
    have hc : stop c = false := ha c (by simp)
    have ih2 := ih (fun d hd => ha d (by simp [hd]))
    simp [splitToP, hc, ih2]

theorem splitToP_sound {stop : Char → Bool} {l : List Char} {pr : List Char × List Char}
    (h : splitToP stop l = some pr) :
    ∃ a s, pr.1 = a ++ [s] ∧ stop s = true ∧ (∀ c ∈ a, stop c = false) ∧ l = pr.1 ++ pr.2 := by
  induction l generalizing pr with
  | nil => cases h
  | cons c cs ih =>
    simp only [splitToP] at h
    by_cases hc : stop c
    · rw [if_pos hc] at h
      injection h with h1
      exact ⟨[], c, by simp [← h1], hc, by simp, by simp [← h1]⟩
    · rw [if_neg hc] at h
      have hcf : stop c = false := by simpa using hc
      cases hsub : splitToP stop cs with
      | none => rw [hsub] at h; cases h
      | some qr =>
        rw [hsub] at h
        injection h with h1
        rcases ih hsub with ⟨a, s, ha1, hs, haf, hl⟩
        refine ⟨c :: a, s, ?_, hs, ?_, ?_⟩
        · simp [← h1, ha1]
        · intro d hd
          rcases List.mem_cons.mp hd with hd1 | hd2
          · rw [hd1]; exact hcf
          · exact haf d hd2
        · simp [← h1, hl]

theorem splitThruP_sound {stop : Char → Bool} {l : List Char} {pr : List Char × List Char}
    (h : splitThruP stop l = some pr) :
    ∃ a s, pr.1 = a ++ [s] ∧ stop s = true ∧ (∀ c ∈ a, stop c = false) ∧ a ≠ [] ∧
      l = pr.1 ++ pr.2 := by
  cases l with
  | nil => cases h
  | cons c cs =>
    simp only [splitThruP] at h
    by_cases hc : stop c
    · rw [if_pos hc] at h; cases h
    · rw [if_neg hc] at h
      have hcf : stop c = false := by simpa using hc
      cases hsub : splitToP stop cs with
      | none => rw [hsub] at h; cases h
      | some qr =>
        rw [hsub] at h
        injection h with h1
        rcases splitToP_sound hsub with ⟨a, s, ha1, hs, haf, hl⟩
        refine ⟨c :: a, s, by simp [← h1, ha1], hs, ?_, by simp, by simp [← h1, hl]⟩
        intro d hd
        rcases List.mem_cons.mp hd with hd1 | hd2
        · rw [hd1]; exact hcf
        · exact haf d hd2

theorem splitThruP_complete {stop : Char → Bool} {a : List Char} {s : Char} (r : List Char)
    (ha : ∀ c ∈ a, stop c = false) (hs : stop s = true) (hne : a ≠ []) :
    splitThruP stop (a ++ s :: r) = some (a ++ [s], r) := by
  cases a with
  | nil => cases hne rfl
  | cons c cs =>
    have hc : stop c = false := ha c (by simp)
    have h2 := @splitToP_complete stop cs s r
      (fun d hd => ha d (by simp [hd])) hs
    simp [splitThruP, hc, h2]

theorem takeWhile_append_of {p : Char → Bool} {w : List Char} {rest : List Char}
    (hw : ∀ c ∈ w, p c = true) (hrest : rest = [] ∨ ∃ d ds, rest = d :: ds ∧ p d = false) :
    (w ++ rest).takeWhile p = w ∧ (w ++ rest).dropWhile p = rest := by
  induction w with
  | nil =>
    rcases hrest with h | ⟨d, ds, hd, hpd⟩
    · simp [h, List.takeWhile, List.dropWhile]
    · subst hd
      simp [List.takeWhile, List.dropWhile, hpd]
  | cons c cs ih =>
    have hc : p c = true := hw c (by simp)
    have := ih (fun d hd => hw d (by simp [hd]))
    simp [List.takeWhile, List.dropWhile, hc, this.1, this.2]

theorem subAllF_fuelIrrel (f : List Char → Option (List Char × List Char))
    (rep : List Char → List Char)
    (hf : ∀ l pr, f l = some pr → pr.2.length < l.length) :
    ∀ n m (l : List Char), l.length ≤ n → l.length ≤ m →
      subAllF f rep n l = subAllF f rep m l := by
  intro n
  induction n with
  | zero =>
    intro m l h1 _
    cases l with
    | nil => cases m <;> rfl
    | cons c cs => simp at h1
  | succ n ih =>
    intro m l h1 h2
    cases l with
    | nil => cases m <;> rfl
    | cons c cs =>
      cases m with
      | zero => simp at h2
      | succ m =>
        cases h : f (c :: cs) with
        | none =>
          simp only [subAllF, h]
          simp only [List.length_cons, Nat.add_le_add_iff_right] at h1 h2
          rw [ih m cs h1 h2]
        | some pr =>
          have hlt := hf _ _ h
          simp only [subAllF, h]
          simp only [List.length_cons] at h1 h2 hlt
          rw [ih m pr.2 (by omega) (by omega)]

theorem subAll_cons_none {f : List Char → Option (List Char × List Char)}
    {rep : List Char → List Char} {c : Char} {cs : List Char}
    (h : f (c :: cs) = none) :
    subAll f rep (c :: cs) = c :: subAll f rep cs := by
  simp only [subAll, List.length_cons, subAllF, h]

theorem subAll_cons_some {f : List Char → Option (List Char × List Char)}
    {rep : List Char → List Char} {c : Char} {cs : List Char} {pr : List Char × List Char}
    (h : f (c :: cs) = some pr)
    (hf : ∀ l pr, f l = some pr → pr.2.length < l.length) :
    subAll f rep (c :: cs) = rep pr.1 ++ subAll f rep pr.2 := by
  simp only [subAll, List.length_cons, subAllF, h]
  have hlt := hf _ _ h
  simp only [List.length_cons] at hlt
  rw [subAllF_fuelIrrel f rep hf cs.length pr.2.length pr.2 (by omega) le_rfl]

theorem subAll_noHit (f : List Char → Option (List Char × List Char))
    (rep : List Char → List Char) (pre rest : List Char)
    (h : noHitIn f pre rest = true) :
    subAll f rep (pre ++ rest) = pre ++ subAll f rep rest := by
  induction pre with
  | nil => simp
  | cons c cs ih =>
    simp only [noHitIn, Bool.and_eq_true, Option.isNone_iff_eq_none] at h
    rcases h with ⟨hnone, hrec⟩
    rw [List.cons_append, subAll_cons_none (by simpa using hnone), ih hrec, List.cons_append]

theorem subAll_head (f : List Char → Option (List Char × List Char))
    (rep : List Char → List Char) {x r y : List Char} (hx : x ≠ [])
    (hm : f (x ++ r) = some (y, r))
    (hf : ∀ l pr, f l = some pr → pr.2.length < l.length) :
    subAll f rep (x ++ r) = rep y ++ subAll f rep r := by
  cases x with
  | nil => cases hx rfl
  | cons c cs =>
    rw [List.cons_append] at hm ⊢
    exact subAll_cons_some hm hf

theorem subAll_id_of_noHit (f : List Char → Option (List Char × List Char))
    (rep : List Char → List Char) (l : List Char)
    (h : noHitIn f l [] = true) : subAll f rep l = l := by
  have h2 := subAll_noHit f rep l [] (by simpa using h)
  simpa [subAll, subAllF] using h2

theorem searchSplit_sound (f : List Char → Option (List Char × List Char))
    (hf : ∀ l pr, f l = some pr → l = pr.1 ++ pr.2) :
    ∀ l pr, searchSplit f l = some pr → l = pr.1 ++ pr.2 := by
  intro l
  induction l with
  | nil => intro pr h; cases h
  | cons c cs ih =>
    intro pr h
    simp only [searchSplit] at h
    cases hh : f (c :: cs) with
    | some qr =>
      rw [hh] at h
      injection h with h1
      rw [← h1]
      exact hf _ _ hh
    | none =>
      rw [hh] at h
      cases hs : searchSplit f cs with
      | none => rw [hs] at h; cases h
      | some qr =>
        rw [hs] at h
        injection h with h1
        rw [← h1]
        simpa using ih qr hs

theorem searchSplit_consumed (f : List Char → Option (List Char × List Char))
    {P : List Char → Prop} (hf : ∀ l pr, f l = some pr → P pr.1) :
    ∀ l pr, searchSplit f l = some pr → ∃ u t, pr.1 = u ++ t ∧ P t := by
  intro l
  induction l with
  | nil => intro pr h; cases h
  | cons c cs ih =>
    intro pr h
    simp only [searchSplit] at h
    cases hh : f (c :: cs) with
    | some qr =>
      rw [hh] at h
      injection h with h1
      exact ⟨[], pr.1, by simp, by rw [← h1]; exact hf _ _ hh⟩
    | none =>
      rw [hh] at h
      cases hs : searchSplit f cs with
      | none => rw [hs] at h; cases h
      | some qr =>
        rw [hs] at h
        injection h with h1
        rcases ih qr hs with ⟨u, t, hu, hp⟩
        exact ⟨c :: u, t, by simp [← h1, hu], hp⟩

theorem dedup_foldl_nodup (l : List (List Char)) :
    ∀ acc : List (List Char), acc.Nodup →
      (l.foldl (fun acc x => if acc.contains x then acc else acc ++ [x]) acc).Nodup := by
  induction l with
  | nil => intro acc h; exact h
  | cons x xs ih =>
    intro acc h
    simp only [List.foldl]
    by_cases hc : acc.contains x
    · rw [if_pos hc]; exact ih acc h
    · rw [if_neg hc]
      refine ih _ ?_
      have hx : x ∉ acc := fun hmem => hc (List.elem_eq_true_of_mem hmem)
      simp [List.nodup_append, h, hx]

theorem nodup_optional_cons (a b c : List Char) (p q r : Bool)
    (hab : a ≠ b) (hac : a ≠ c) (hbc : b ≠ c) :
    ((if p then [a] else []) ++ (if q then [b] else []) ++ (if r then [c] else [])).Nodup := by
  cases p <;> cases q <;> cases r <;> simp [hab, hac, hbc]

/-- C10: whenever a file's content contains parseStandardPaginationParams or
getRequestId anywhere, migrate_endpoint applies no transformation at all: the
content is left untouched, nothing is written, and the function returns
success, regardless of the state of the write channel. -/
theorem C10_migrate_early_exit : ∀ (content : List Char) (f : FileOps),
    (occursIn (str "parseStandardPaginationParams") content = true ∨
     occursIn (str "getRequestId") content = true) →
    f.present = true → f.readRes = Except.ok content →
    Mig.migrate_endpoint_on content = (true, none) ∧ Mig.migrate_endpoint f = true := by
  intro content f h hp hr
  have hg : Mig.migGuard content = true := by
    simp only [Mig.migGuard, Bool.or_eq_true]
    exact h
  constructor
  · simp [Mig.migrate_endpoint_on, hg]
  · simp [Mig.migrate_endpoint, hp, Mig.migrate_endpoint_body, hr, hg,
      Bind.bind, Except.bind, pure, Except.pure]

/-- C10 witness: a concrete file containing getRequestId and a legacy
buildPagedResponse call that other rules would rewrite is left untouched and
reported migrated, even along a broken write channel. -/
theorem C10_witness :
    occursIn (str "getRequestId") cMigGuard = true ∧
    occursIn (str "buildPagedResponse(") cMigGuard = true ∧
    Mig.migrate_endpoint_on cMigGuard = (true, none) ∧
    Mig.migrate_endpoint (FileOps.mk true (Except.ok cMigGuard) (Except.error PyErr.ioError)) = true := by
  refine ⟨rfl, rfl, ?_, ?_⟩
  · exact (C10_migrate_early_exit cMigGuard
      (FileOps.mk true (Except.ok cMigGuard) (Except.error PyErr.ioError))
      (Or.inr rfl) rfl rfl).1
  · exact (C10_migrate_early_exit cMigGuard
      (FileOps.mk true (Except.ok cMigGuard) (Except.error PyErr.ioError))
      (Or.inr rfl) rfl rfl).2

/-- C9: a path whose API segment begins with a skip-list entry is resolved to
no resource by get_resource_from_path, and the main loop records it as a
skipped outcome, never as an updated or failed one; the file task is never
touched, so the result holds for every state of the file. -/
theorem C9_skip_list_exclusion : ∀ (path s rest : List Char) (f : FileOps),
    s ∈ Rbac.SKIP_PATHS →
    occursIn (str "/api/") path = true →
    Rbac.afterFirst (str "/api/") path = some rest →
    startsW s (str "/api/" ++ rest.takeWhile (fun c => !(c == '/'))) = true →
    Rbac.get_resource_from_path path = none ∧
    Rbac.runTask (path, f) = Rbac.Outcome.skipped := by
  intro path s rest f hs hocc hafter hpre
  have hany : Rbac.SKIP_PATHS.any
      (fun q => occursIn q (str "/api/" ++ rest.takeWhile (fun c => !(c == '/')))) = true := by
    refine List.any_eq_true.mpr ⟨s, hs, ?_⟩
    exact occursIn_of_startsW hpre
  have hnone : Rbac.get_resource_from_path path = none := by
    simp only [Rbac.get_resource_from_path, hocc, if_true, hafter]
    rw [if_pos hany]
  exact ⟨hnone, by simp [Rbac.runTask, hnone]⟩

/-- C9 witness: the auth route path is excluded and reported skipped even when
its file cannot be read. -/
theorem C9_witness :
    Rbac.get_resource_from_path pAuth = none ∧
    Rbac.runTask (pAuth, fReadErr) = Rbac.Outcome.skipped := by
  exact C9_skip_list_exclusion pAuth (str "/api/auth") (str "auth/login/route.ts") fReadErr
    (by simp [Rbac.SKIP_PATHS]) rfl rfl rfl

/-- C3 counterexample: process_file of apply-phase1-standards.py has no
exception handler; on a file whose legacy internal-error call carries no
quoted message the replacement lambda raises AttributeError, the exception
propagates out of process_file, and the batch loop aborts without reaching
the remaining healthy file, while the same batch without the poisoned file
completes. -/
theorem C3_counterexample :
    Phase1.process_file fBad = Except.error PyErr.attributeError ∧
    Phase1.runBatch [fBad, fGood] = Except.error PyErr.attributeError ∧
    Phase1.runBatch [fGood] = Except.ok 0 := ⟨rfl, rfl, rfl⟩

/-- C3 amended: per-file exceptions are caught and recorded as a failed
outcome in process_file of apply-rbac.py, update_file of
update-phase1-endpoints.py and migrate_endpoint of migrate-endpoints.py, whose
batches therefore yield one outcome per task; but process_file of
apply-phase1-standards.py propagates them (see the counterexample). -/
theorem C3_per_file_catch : ∀ (f1 f2 f3 : FileOps) (resource path : List Char)
    (e1 e2 e3 : PyErr) (ts : List (List Char × FileOps)),
    (Rbac.process_file_body f1 resource = Except.error e1 → Rbac.process_file f1 resource = false) ∧
    (UpdEp.update_file_body f2 path = Except.error e2 → UpdEp.update_file f2 path = false) ∧
    (Mig.migrate_endpoint_body f3 = Except.error e3 → Mig.migrate_endpoint f3 = false) ∧
    (Rbac.runBatch ts).length = ts.length := by
  intro f1 f2 f3 resource path e1 e2 e3 ts
  refine ⟨?_, ?_, ?_, ?_⟩
  · intro h; simp [Rbac.process_file, h]
  · intro h; simp [UpdEp.update_file, h]
  · intro h
    unfold Mig.migrate_endpoint
    by_cases hp : f3.present
    · simp [hp, h]
    · have hp2 : f3.present = false := by simpa using hp
      simp [hp2]
  · simp [Rbac.runBatch]

set_option maxRecDepth 4000 in
/-- C3 witness: a failing read is caught by all three catching entry points
and reported as a failed outcome. -/
theorem C3_witness :
    Rbac.process_file fReadErr (str "clients") = false ∧
    UpdEp.update_file fReadErr (str "p") = false ∧
    Mig.migrate_endpoint fReadErr = false := by
  have h := C3_per_file_catch fReadErr fReadErr fReadErr (str "clients") (str "p")
    PyErr.ioError PyErr.ioError PyErr.ioError []
  exact ⟨h.1 rfl, h.2.1 rfl, h.2.2.1 rfl⟩

/-- C5: both batch writers compare the transformed content with the original
and write only when they differ; whatever is written is the complete output of
the transformation chain, so a file is either left at its original content or
fully replaced, never partially rewritten. -/
theorem C5_write_only_on_change : ∀ (content path : List Char),
    (∀ w, (UpdEp.update_file_on content path).2 = some w →
        w = UpdEp.updateFileChain content path ∧ w ≠ content ∧
        (UpdEp.update_file_on content path).1 = true) ∧
    ((UpdEp.update_file_on content path).2 = none →
        UpdEp.updateFileChain content path = content ∨ UpdEp.updFileSkip content = true) ∧
    (∀ res, Phase1.process_file_on content = Except.ok res →
        (res.2 = none ∧ Phase1.phase1Chain content = Except.ok content) ∨
        (∃ w, res.2 = some w ∧ Phase1.phase1Chain content = Except.ok w ∧ w ≠ content)) := by
  intro content path
  refine ⟨?_, ?_, ?_⟩
  · intro w hw
    by_cases hskip : UpdEp.updFileSkip content = true
    · simp [UpdEp.update_file_on, hskip] at hw
    · by_cases hne : UpdEp.updateFileChain content path = content
      · simp [UpdEp.update_file_on, hskip, hne] at hw
      · have hw2 : UpdEp.updateFileChain content path = w := by
          simpa [UpdEp.update_file_on, hskip, hne] using hw
        refine ⟨hw2.symm, ?_, ?_⟩
        · rw [← hw2]; exact hne
        · simp [UpdEp.update_file_on, hskip, hne]
  · intro hn
    by_cases hskip : UpdEp.updFileSkip content = true
    · exact Or.inr hskip
    · by_cases hne : UpdEp.updateFileChain content path = content
      · exact Or.inl hne
      · simp [UpdEp.update_file_on, hskip, hne] at hn
  · intro res hres
    cases hch : Phase1.phase1Chain content with
    | error e =>
      rw [Phase1.process_file_on, hch] at hres
      cases hres
    | ok out =>
      rw [Phase1.process_file_on, hch] at hres
      simp only [Bind.bind, Except.bind] at hres
      by_cases hne : out ≠ content
      · rw [if_pos hne] at hres
        injection hres with h1
        exact Or.inr ⟨out, by rw [← h1], rfl, hne⟩
      · rw [if_neg hne] at hres
        injection hres with h1
        push_neg at hne
        exact Or.inl ⟨by rw [← h1], by rw [hne]⟩

set_option maxRecDepth 100000 in
/-- C5 witness: on a concrete file the executor writes exactly the complete
chain output, which differs from the original. -/
theorem C5_witness :
    UpdEp.updateFileChain cDup pList ≠ cDup ∧
    (UpdEp.update_file_on cDup pList).1 = true := by
  have h := (C5_write_only_on_change cDup pList).1 (UpdEp.updateFileChain cDup pList) rfl
  exact ⟨h.2.1, h.2.2⟩

theorem splitLit_shrink (pat : List Char) (hne : pat ≠ []) :
    ∀ l pr, splitLit pat l = some pr → pr.2.length < l.length := by
  intro l pr h
  rcases splitLit_sound h with ⟨_, h2⟩
  rw [h2]
  simp only [List.length_append]
  have : 0 < pat.length := List.length_pos.mpr hne
  omega

theorem not_mem_optional (x a : List Char) (p : Bool) (h : x ≠ a) :
    x ∈ (if p then [a] else []) → False := by
  cases p <;> simp [h]

/-- C7 counterexample: the paged-response rewrite of update_pagination_calls of
migrate-endpoints.py appends two arguments, baseUrl and appliedFilters, that
are not present in the input, so it is not a pure name substitution. -/
theorem C7_counterexample :
    Mig.update_pagination_calls cBpr =
      str "buildStandardListResponse(a, b, c, d, baseUrl, appliedFilters)" ∧
    occursIn (str "baseUrl") cBpr = false ∧
    occursIn (str "appliedFilters") cBpr = false := ⟨rfl, rfl, rfl⟩

/-- C7 amended: replace_pagination_calls of apply-phase1-standards.py is a
pure name substitution: with the legacy call at a unique position and no
paged-response call present, the argument text and the surrounding text are
carried over unchanged, only the callee name changes. -/
theorem C7_rename_is_name_substitution : ∀ pre args post : List Char,
    noHitIn (splitLit (str "parsePaginationParams(")) pre
      (str "parsePaginationParams(" ++ (args ++ post)) = true →
    noHitIn (splitLit (str "parsePaginationParams(")) (args ++ post) [] = true →
    noHitIn (splitLit (str "buildPagedResponse("))
      (pre ++ (str "parseStandardPaginationParams(" ++ (args ++ post))) [] = true →
    Phase1.replace_pagination_calls (pre ++ (str "parsePaginationParams(" ++ (args ++ post))) =
      pre ++ (str "parseStandardPaginationParams(" ++ (args ++ post)) := by
  intro pre args post h1 h2 h3
  unfold Phase1.replace_pagination_calls
  have hshrink := splitLit_shrink (str "parsePaginationParams(") (by decide)
  have hin : subAll (splitLit (str "parsePaginationParams("))
      (fun _ => str "parseStandardPaginationParams(")
      (pre ++ (str "parsePaginationParams(" ++ (args ++ post))) =
      pre ++ (str "parseStandardPaginationParams(" ++ (args ++ post)) := by
    rw [subAll_noHit _ _ _ _ h1]
    rw [subAll_head _ _ (by decide) (splitLit_self _ _) hshrink]
    rw [subAll_id_of_noHit _ _ _ h2]
  rw [hin]
  exact subAll_id_of_noHit _ _ _ h3

/-- C7 witness: a concrete renaming around explicit argument text. -/
theorem C7_witness :
    Phase1.replace_pagination_calls
      (str "x = " ++ (str "parsePaginationParams(" ++ (str "req" ++ str ");"))) =
      str "x = " ++ (str "parseStandardPaginationParams(" ++ (str "req" ++ str ");")) :=
  C7_rename_is_name_substitution (str "x = ") (str "req") (str ");") rfl rfl rfl

set_option maxRecDepth 100000 in
/-- C4 counterexample: on a file that already imports getRequestId from
another module while logResponse is absent, add_imports of
update-phase1-endpoints.py inserts the whole correlation import line, after
which getRequestId appears twice rather than exactly once. -/
theorem C4_counterexample :
    occursIn (str "getRequestId") cDup = true ∧
    countOcc (str "getRequestId") (UpdEp.add_imports cDup pList) = 2 := ⟨rfl, rfl⟩

/-- C4 amended: within one run the canonical import lines are never queued
twice (the imports_to_add list has no duplicates), the correlation line is not
queued when both of its detection symbols are already present, and
update_pagination_imports of migrate-endpoints.py deduplicates its result
list; but symbol-level uniqueness can fail when a canonical symbol is already
present through a different import line (see the counterexample). -/
theorem C4_no_duplicate_lines : ∀ (content path s : List Char) (lines : List (List Char)),
    occursIn (str "getRequestId") content = true →
    occursIn (str "logResponse") content = true →
    (UpdEp.importsToAdd content path lines).Nodup ∧
    UpdEp.corrImport ∉ UpdEp.importsToAdd content path lines ∧
    (Mig.update_pagination_imports_list s).Nodup := by
  intro content path s lines h1 h2
  have hcorr : (!occursIn (str "getRequestId") content ||
      !occursIn (str "logResponse") content) = false := by
    rw [h1, h2]; rfl
  refine ⟨?_, ?_, ?_⟩
  · unfold UpdEp.importsToAdd
    rw [hcorr]
    simp only [Bool.false_eq_true, if_false, List.nil_append]
    exact nodup_optional_cons _ _ _ _ _ _ (by decide) (by decide) (by decide)
  · unfold UpdEp.importsToAdd
    rw [hcorr]
    simp only [Bool.false_eq_true, if_false, List.nil_append]
    intro hmem
    rcases List.mem_append.mp hmem with hm | hm
    · rcases List.mem_append.mp hm with hm2 | hm2
      · exact not_mem_optional _ _ _ (by decide) hm2
      · exact not_mem_optional _ _ _ (by decide) hm2
    · exact not_mem_optional _ _ _ (by decide) hm
  · exact dedup_foldl_nodup _ [] (by simp)

/-- C4 witness: a file already containing both detection symbols queues no
correlation line and no duplicates; the migrate import list deduplicates a
repeated name. -/
theorem C4_witness :
    (UpdEp.importsToAdd (str "getRequestId logResponse") pList
      (linesOf (str "getRequestId logResponse"))).Nodup ∧
    UpdEp.corrImport ∉ UpdEp.importsToAdd (str "getRequestId logResponse") pList
      (linesOf (str "getRequestId logResponse")) ∧
    (Mig.update_pagination_imports_list (str "a, b, a")).Nodup :=
  C4_no_duplicate_lines (str "getRequestId logResponse") pList (str "a, b, a")
    (linesOf (str "getRequestId logResponse")) rfl rfl

set_option maxRecDepth 100000 in
/-- C6 counterexample: add_request_tracking_to_get of
apply-phase1-standards.py performs no rate-check-marker test: on a file that
already contains globalRateLimitTracker.trackRequest together with an
authorization destructure it inserts its rate-limiting block again instead of
leaving the content unchanged. -/
theorem C6_counterexample :
    occursIn UpdEp.trackMarker cTrack = true ∧
    Phase1.add_request_tracking_to_get cTrack ≠ cTrack := by
  refine ⟨rfl, by decide⟩

set_option maxRecDepth 100000 in
/-- C6 amended: add_rate_limiting of update-phase1-endpoints.py satisfies the
rate-limit injection contract: it leaves any content containing the
rate-check marker unchanged; otherwise it splices its block immediately after
the first authorization destructure; and the injected block carries the
method table limits (GET 100, POST 50, PUT 50, PATCH 50, DELETE 20, window
3600), the method key suffixes, the user key, the 429 status and the
try-again-in-minutes message computed from the reset time. -/
theorem C6_rate_limit_contract : ∀ (content m : List Char) (pr : List Char × List Char),
    (occursIn UpdEp.trackMarker content = true → UpdEp.add_rate_limiting content m = content) ∧
    (occursIn UpdEp.trackMarker content = false →
      searchSplit (splitLit UpdEp.authDestr) content = some pr →
      UpdEp.add_rate_limiting content m = pr.1 ++ UpdEp.rlCode m ++ pr.2 ∧
      content = pr.1 ++ pr.2 ∧ (∃ u, pr.1 = u ++ UpdEp.authDestr)) ∧
    (UpdEp.RATE_LIMITS (str "GET") = (100, 3600) ∧
     UpdEp.RATE_LIMITS (str "POST") = (50, 3600) ∧
     UpdEp.RATE_LIMITS (str "PUT") = (50, 3600) ∧
     UpdEp.RATE_LIMITS (str "PATCH") = (50, 3600) ∧
     UpdEp.RATE_LIMITS (str "DELETE") = (20, 3600) ∧
     UpdEp.keySuffix (str "GET") = [] ∧
     UpdEp.keySuffix (str "POST") = str "_create" ∧
     UpdEp.keySuffix (str "PUT") = str "_update" ∧
     UpdEp.keySuffix (str "PATCH") = str "_update" ∧
     UpdEp.keySuffix (str "DELETE") = str "_delete") ∧
    (occursIn (str "429") (UpdEp.rlCode m) = true ∧
     occursIn (str "Rate limit exceeded. Try again in $\x7bminutesLeft\x7d minutes.")
       (UpdEp.rlCode m) = true ∧
     occursIn (str "rateLimit.reset") (UpdEp.rlCode m) = true ∧
     occursIn (str "standardErrorResponse") (UpdEp.rlCode m) = true ∧
     occursIn (str "`user_$\x7buser.userId\x7d" ++ UpdEp.keySuffix m ++ str "`")
       (UpdEp.rlCode m) = true ∧
     occursIn (natStr (UpdEp.RATE_LIMITS m).1 ++ UpdEp.rlD ++ natStr (UpdEp.RATE_LIMITS m).2)
       (UpdEp.rlCode m) = true) := by
  intro content m pr
  refine ⟨?_, ?_, ⟨rfl, rfl, rfl, rfl, rfl, rfl, rfl, rfl, rfl, rfl⟩, ?_, ?_, ?_, ?_, ?_, ?_⟩
  · intro hocc
    unfold UpdEp.add_rate_limiting
    cases hs : searchSplit (splitLit UpdEp.authDestr) content with
    | none => rfl
    | some pr2 => simp [hocc]
  · intro hocc hsearch
    have hsound : ∀ l pr2, splitLit UpdEp.authDestr l = some pr2 → l = pr2.1 ++ pr2.2 := by
      intro l pr2 h
      rcases splitLit_sound h with ⟨h1, h2⟩
      rw [h2, h1]
    refine ⟨?_, ?_, ?_⟩
    · unfold UpdEp.add_rate_limiting
      rw [hsearch]
      simp [hocc]
    · exact searchSplit_sound _ hsound content pr hsearch
    · rcases searchSplit_consumed _ (P := fun t => t = UpdEp.authDestr)
        (fun l pr2 h => (splitLit_sound h).1) content pr hsearch with ⟨u, t, hu, hp⟩
      exact ⟨u, by rw [hu, hp]⟩
  · unfold UpdEp.rlCode
    exact occursIn_append_right _ rfl
  · unfold UpdEp.rlCode
    exact occursIn_append_right _ rfl
  · unfold UpdEp.rlCode
    exact occursIn_append_right _ rfl
  · unfold UpdEp.rlCode
    exact occursIn_append_right _ rfl
  · refine occursIn_iff.mpr
      ⟨UpdEp.rlA ++ natStr (UpdEp.RATE_LIMITS m).1 ++
        str " requests per hour per user)\n    const rateLimit = globalRateLimitTracker.trackRequest(\n      ",
       str ",\n      " ++ natStr (UpdEp.RATE_LIMITS m).1 ++ UpdEp.rlD ++
        natStr (UpdEp.RATE_LIMITS m).2 ++ UpdEp.rlE, ?_⟩
    unfold UpdEp.rlCode UpdEp.rlB UpdEp.rlC
    simp only [str, List.append_assoc, List.cons_append, List.nil_append]
  · refine occursIn_iff.mpr
      ⟨UpdEp.rlA ++ natStr (UpdEp.RATE_LIMITS m).1 ++ UpdEp.rlB ++ UpdEp.keySuffix m ++ UpdEp.rlC,
       UpdEp.rlE, ?_⟩
    unfold UpdEp.rlCode
    simp only [List.append_assoc]

/-- C6 witness: on a concrete destructure the GET block is spliced in right
after it. -/
theorem C6_witness :
    UpdEp.add_rate_limiting cDestr (str "GET") =
      UpdEp.authDestr ++ UpdEp.rlCode (str "GET") ++ str "\nrest" :=
  ((C6_rate_limit_contract cDestr (str "GET") (UpdEp.authDestr, str "\nrest")).2.1 rfl rfl).1

theorem subAllF_id_of_noHit (f : List Char → Option (List Char × List Char))
    (rep : List Char → List Char) :
    ∀ (n : Nat) (l : List Char), l.length ≤ n → noHitIn f l [] = true →
      subAllF f rep n l = l := by
  intro n
  induction n with
  | zero =>
    intro l h1 _
    cases l with
    | nil => rfl
    | cons c cs => simp at h1
  | succ n ih =>
    intro l h1 h2
    cases l with
    | nil => rfl
    | cons c cs =>
      have h2a : ((f (c :: cs ++ [])).isNone && noHitIn f cs []) = true := h2
      have h2b : (f (c :: cs ++ [])).isNone = true ∧ noHitIn f cs [] = true := by
        simpa using h2a
      have hnone : f (c :: cs) = none := by
        have h3 := h2b.1
        simpa using h3
      have hrec : noHitIn f cs [] = true := h2b.2
      have hlen : cs.length ≤ n := by simp at h1; omega
      simp only [subAllF, hnone]
      rw [ih cs hlen hrec]

theorem subAll_head_noHitTail (f : List Char → Option (List Char × List Char))
    (rep : List Char → List Char) {x r y : List Char} (hx : x ≠ [])
    (hm : f (x ++ r) = some (y, r)) (hr : noHitIn f r [] = true) :
    subAll f rep (x ++ r) = rep y ++ r := by
  cases x with
  | nil => cases hx rfl
  | cons c cs =>
    rw [List.cons_append] at hm ⊢
    simp only [subAll, List.length_cons, subAllF, hm]
    rw [subAllF_id_of_noHit f rep (cs ++ r).length r (by simp) hr]

set_option maxRecDepth 100000 in
theorem nfM_head (post : List Char) :
    UpdEp.tryQuotedErr (str "notFoundProblem") UpdEp.nfA UpdEp.nfB (legacyNF ++ post) =
      some (targetNF, post) := rfl

set_option maxRecDepth 100000 in
/-- C8 counterexample: on the legacy not-found line, migrate-endpoints.py
rewrites to notFoundErrorResponse carrying the message and the correlation
identifier, and its output contains neither the categorical code NOT_FOUND nor
the literal status 404. -/
theorem C8_counterexample :
    occursIn legacyNF cHotelMig = true ∧
    Mig.migrate_endpoint_on cHotelMig = (true, some cHotelMigOut) ∧
    occursIn (str "NOT_FOUND") cHotelMigOut = false ∧
    occursIn (str "404") cHotelMigOut = false ∧
    occursIn (str "Hotel not found") cHotelMigOut = true ∧
    occursIn (str "requestId") cHotelMigOut = true :=
  ⟨rfl, rfl, rfl, rfl, rfl, rfl⟩

set_option maxRecDepth 100000 in
/-- C8 amended: error canonicalization holds for update-phase1-endpoints.py:
its pipeline run on the scenario file rewrites the legacy not-found
construction with message Hotel not found into the standardized call carrying
NOT_FOUND, 404, the unchanged message and the correlation identifier, and
replace_old_error_functions rewrites any isolated occurrence of the legacy
line that way; migrate-endpoints.py, by contrast, rewrites the same legacy
line to notFoundErrorResponse with the message and the correlation identifier
but with no literal NOT_FOUND code and no literal 404 status. -/
theorem C8_error_canonicalization :
    (occursIn legacyNF cHotel = true ∧
     occursIn targetNF (UpdEp.updateFileChain cHotel pHotel) = true ∧
     occursIn legacyNF (UpdEp.updateFileChain cHotel pHotel) = false ∧
     Mig.update_error_responses cHotelMig = cHotelMigOut) ∧
    (∀ pre post : List Char,
      noHitIn (UpdEp.tryQuotedErr (str "notFoundProblem") UpdEp.nfA UpdEp.nfB) pre
        (legacyNF ++ post) = true →
      noHitIn (UpdEp.tryQuotedErr (str "notFoundProblem") UpdEp.nfA UpdEp.nfB) post [] = true →
      noHitIn (UpdEp.tryQuotedErr (str "badRequestProblem") UpdEp.brA UpdEp.brB)
        (pre ++ targetNF ++ post) [] = true →
      noHitIn (UpdEp.tryQuotedErr (str "internalServerErrorProblem") UpdEp.iseA UpdEp.iseB)
        (pre ++ targetNF ++ post) [] = true →
      noHitIn UpdEp.tryGenericIse (pre ++ targetNF ++ post) [] = true →
      noHitIn UpdEp.trySuccess (pre ++ targetNF ++ post) [] = true →
      UpdEp.replace_old_error_functions (pre ++ (legacyNF ++ post)) =
        pre ++ targetNF ++ post) := by
  refine ⟨⟨rfl, rfl, rfl, rfl⟩, ?_⟩
  intro pre post h1 h2 h3 h4 h5 h6
  unfold UpdEp.replace_old_error_functions
  rw [subAll_noHit _ id _ _ h1,
      subAll_head_noHitTail _ id (show legacyNF ≠ [] by decide) (nfM_head post) h2]
  simp only [id_eq]
  rw [← List.append_assoc]
  rw [subAll_id_of_noHit _ id _ h3, subAll_id_of_noHit _ id _ h4,
      subAll_id_of_noHit _ id _ h5, subAll_id_of_noHit _ id _ h6]

set_option maxRecDepth 100000 in
/-- C8 witness: the replacement of an isolated legacy line inside a small
concrete file. -/
theorem C8_witness :
    UpdEp.replace_old_error_functions (str "  x = " ++ (legacyNF ++ str ";\n")) =
      str "  x = " ++ targetNF ++ str ";\n" :=
  C8_error_canonicalization.2 (str "  x = ") (str ";\n") rfl rfl rfl rfl rfl rfl

set_option maxRecDepth 100000 in
/-- C2 counterexample: on a file whose GET handler precedes a POST handler,
apply-rbac.py injects no create-action call at all: the POST handler's
authorization block receives the action read while the GET handler keeps its
legacy requireTenant call. -/
theorem C2_counterexample :
    occursIn (str "export async function POST(") cTwoHandlers = true ∧
    occursIn (str "requireTenant") cTwoHandlers = true ∧
    occursIn (str "\x27create\x27") (Rbac.rbacChain cTwoHandlers (str "clients")) = false ∧
    occursIn (str "\x27read\x27") (Rbac.rbacChain cTwoHandlers (str "clients")) = true ∧
    occursIn (str "requireTenant") (Rbac.rbacChain cTwoHandlers (str "clients")) = true :=
  ⟨rfl, rfl, rfl, rfl, rfl⟩

set_option maxRecDepth 100000 in
/-- C2 amended: the action argument injected by replace_auth_in_method is the
image of the processed method under the fixed table METHOD_TO_ACTION, and the
destructured variable text is carried over; but the rewritten authorization
block is the first requireTenant block after the first brace that follows the
processed handler's opening brace, which can lie in the next handler: on the
two-handler file the POST block is rewritten with the GET action read and the
GET block keeps requireTenant. -/
theorem C2_method_action :
    Rbac.METHOD_TO_ACTION = [
      (str "GET", str "read"),
      (str "POST", str "create"),
      (str "PUT", str "update"),
      (str "PATCH", str "update"),
      (str "DELETE", str "delete")] ∧
    Rbac.rbacChain cTwoHandlers (str "clients") = cTwoExpected ∧
    occursIn (Rbac.authRepl (str "clients") (str "read") (str "tenantId "))
      cTwoExpected = true :=
  ⟨rfl, rfl, rfl⟩

theorem append_cancel_first {x : Char} : ∀ (a b u v : List Char), x ∉ a → x ∉ b →
    a ++ x :: u = b ++ x :: v → a = b ∧ u = v := by
  intro a
  induction a with
  | nil =>
    intro b u v _ hb h
    cases b with
    | nil => simpa using h
    | cons y bs =>
      rw [List.nil_append, List.cons_append] at h
      injection h with h1 h2
      subst h1
      exact absurd (List.mem_cons_self x bs) hb
  | cons z as ih =>
    intro b u v ha hb h
    cases b with
    | nil =>
      rw [List.cons_append, List.nil_append] at h
      injection h with h1 h2
      exact absurd (show x ∈ z :: as by rw [h1]; exact List.mem_cons_self _ _) ha
    | cons y bs =>
      rw [List.cons_append, List.cons_append] at h
      injection h with h1 h2
      have ha2 : x ∉ as := fun hm => ha (List.mem_cons_of_mem _ hm)
      have hb2 : x ∉ bs := fun hm => hb (List.mem_cons_of_mem _ hm)
      rcases ih bs u v ha2 hb2 h2 with ⟨hab, huv⟩
      exact ⟨by rw [h1, hab], huv⟩

theorem tryUMH_complete (m w1p b0 w2p r : List Char)
    (hw1 : ∀ c ∈ w1p, wsChar c = true) (hb0 : ∀ c ∈ b0, (c == ')') = false)
    (hbne : b0 ≠ []) (hw2 : ∀ c ∈ w2p, wsChar c = true) :
    UpdEp.tryUMH m ((str "export async function " ++ m) ++
        (w1p ++ '(' :: (b0 ++ ')' :: (w2p ++ '\x7b' :: r)))) =
      some ((str "export async function " ++ m) ++
        (w1p ++ '(' :: (b0 ++ ')' :: (w2p ++ ['\x7b']))), r) := by
  have h2 : List.takeWhile wsChar (w1p ++ '(' :: (b0 ++ ')' :: (w2p ++ '\x7b' :: r))) = w1p ∧
      List.dropWhile wsChar (w1p ++ '(' :: (b0 ++ ')' :: (w2p ++ '\x7b' :: r))) =
        '(' :: (b0 ++ ')' :: (w2p ++ '\x7b' :: r)) :=
    takeWhile_append_of hw1 (Or.inr ⟨'(', _, rfl, by decide⟩)
  have h5 : splitLit ['('] ('(' :: (b0 ++ ')' :: (w2p ++ '\x7b' :: r))) =
      some (['('], b0 ++ ')' :: (w2p ++ '\x7b' :: r)) :=
    splitLit_self ['('] _
  have h3 : splitThruP (fun c => c == ')') (b0 ++ ')' :: (w2p ++ '\x7b' :: r)) =
      some (b0 ++ [')'], w2p ++ '\x7b' :: r) :=
    splitThruP_complete _ hb0 (by simp) hbne
  have h4 : List.takeWhile wsChar (w2p ++ '\x7b' :: r) = w2p ∧
      List.dropWhile wsChar (w2p ++ '\x7b' :: r) = '\x7b' :: r :=
    takeWhile_append_of hw2 (Or.inr ⟨'\x7b', r, rfl, by decide⟩)
  have h6 : splitLit ['\x7b'] ('\x7b' :: r) = some (['\x7b'], r) := splitLit_self ['\x7b'] r
  unfold UpdEp.tryUMH
  rw [splitLit_self]
  simp only [Option.bind_eq_bind, Option.some_bind, List.singleton_append]
  simp only [splitRun, h2.1, h2.2]
  rw [h5]
  simp only [Option.some_bind]
  rw [h3]
  simp only [Option.some_bind]
  simp only [h4.1, h4.2]
  rw [h6]
  simp only [Option.some_bind, pure]
  simp [List.append_assoc]

theorem tryUMH_struct {m l : List Char} {pr : List Char × List Char}
    (h : UpdEp.tryUMH m l = some pr) :
    ∃ w1p b0 w2p,
      pr.1 = (str "export async function " ++ m) ++
        (w1p ++ '(' :: (b0 ++ ')' :: (w2p ++ ['\x7b']))) ∧
      l = pr.1 ++ pr.2 ∧
      (∀ c ∈ w1p, wsChar c = true) ∧ (∀ c ∈ b0, (c == ')') = false) ∧
      b0 ≠ [] ∧ (∀ c ∈ w2p, wsChar c = true) := by
  unfold UpdEp.tryUMH at h
  cases h1 : splitLit (str "export async function " ++ m) l with
  | none => rw [h1] at h; cases h
  | some pr1 =>
    rw [h1] at h
    simp only [Option.bind_eq_bind, Option.some_bind, splitRun] at h
    cases h2 : splitLit ['('] (List.dropWhile wsChar pr1.2) with
    | none => rw [h2] at h; cases h
    | some pr2 =>
      rw [h2] at h
      simp only [Option.some_bind] at h
      cases h3 : splitThruP (fun c => c == ')') pr2.2 with
      | none => rw [h3] at h; cases h
      | some pr3 =>
        rw [h3] at h
        simp only [Option.some_bind] at h
        cases h4 : splitLit ['\x7b'] (List.dropWhile wsChar pr3.2) with
        | none => rw [h4] at h; cases h
        | some pr4 =>
          rw [h4] at h
          simp only [Option.some_bind, pure, Option.some.injEq] at h
          rcases splitLit_sound h1 with ⟨ha1, hl1⟩
          rcases splitLit_sound h2 with ⟨ha2, hl2⟩
          rcases splitThruP_sound h3 with ⟨b0, s, hb1, hbs, hb0, hbne, hl3⟩
          rcases splitLit_sound h4 with ⟨ha4, hl4⟩
          have hs : s = ')' := by
            have h7 := hbs
            simp at h7
            exact h7
          refine ⟨List.takeWhile wsChar pr1.2, b0, List.takeWhile wsChar pr3.2, ?_, ?_,
            fun c hc => List.mem_takeWhile_imp hc, hb0, hbne,
            fun c hc => List.mem_takeWhile_imp hc⟩
          · rw [← h, ha1, ha2, hb1, ha4, hs]
            simp [List.append_assoc]
          · rw [← h]
            dsimp only
            rw [hl1]
            conv_lhs => rw [← List.takeWhile_append_dropWhile (p := wsChar) (l := pr1.2)]
            rw [hl2, hl3]
            conv_lhs => rw [← List.takeWhile_append_dropWhile (p := wsChar) (l := pr3.2)]
            rw [hl4, hb1, ha1, ha2, ha4, hs]
            simp [List.append_assoc]

theorem tryUMH_extend {m x r s : List Char} (h : UpdEp.tryUMH m (x ++ r) = some (x, r)) :
    UpdEp.tryUMH m (x ++ s) = some (x, s) := by
  rcases tryUMH_struct h with ⟨w1p, b0, w2p, hy, _, hw1, hb0, hbne, hw2⟩
  have hy2 : x = (str "export async function " ++ m) ++
      (w1p ++ '(' :: (b0 ++ ')' :: (w2p ++ ['\x7b']))) := hy
  rw [hy2]
  have h8 := tryUMH_complete m w1p b0 w2p s hw1 hb0 hbne hw2
  simpa [List.append_assoc] using h8

theorem tryUMH_sound {m : List Char} : ∀ l pr, UpdEp.tryUMH m l = some pr → l = pr.1 ++ pr.2 := by
  intro l pr h
  exact (tryUMH_struct h).choose_spec.choose_spec.choose_spec.2.1

theorem tryUMH_brace {m : List Char} : ∀ l pr, UpdEp.tryUMH m l = some pr →
    ∃ x0, pr.1 = x0 ++ ['\x7b'] := by
  intro l pr h
  rcases tryUMH_struct h with ⟨w1p, b0, w2p, hy, -, -, -, -, -⟩
  refine ⟨(str "export async function " ++ m) ++ (w1p ++ '(' :: (b0 ++ ')' :: w2p)), ?_⟩
  rw [hy]
  simp [List.append_assoc]

theorem tryUMH_failIns {m q0 r : List Char} (hm : '\x7b' ∉ m)
    (hfail : UpdEp.tryUMH m ((q0 ++ ['\x7b']) ++ r) = none) :
    UpdEp.tryUMH m ((q0 ++ ['\x7b']) ++ (UpdEp.phase1Init ++ r)) = none := by
  cases hres : UpdEp.tryUMH m ((q0 ++ ['\x7b']) ++ (UpdEp.phase1Init ++ r)) with
  | none => rfl
  | some pr =>
    exfalso
    rcases tryUMH_struct hres with ⟨w1p, b0, w2p, hy, hl, hw1, hb0, hbne, hw2⟩
    have hy2 : pr.1 = (str "export async function " ++ m) ++
        (w1p ++ '(' :: (b0 ++ ')' :: (w2p ++ ['\x7b']))) := hy
    rcases List.append_eq_append_iff.mp hl with ⟨a2, hpr1, hins⟩ | ⟨c2, hq, hpr2⟩
    · cases a2 with
      | nil =>
        rw [List.append_nil] at hpr1
        have hc : UpdEp.tryUMH m (pr.1 ++ r) = some (pr.1, r) := by
          rw [hy2]
          simpa [List.append_assoc] using
            tryUMH_complete m w1p b0 w2p r hw1 hb0 hbne hw2
        rw [← hpr1] at hfail
        rw [hfail] at hc
        cases hc
      | cons a0 a2t =>
        have hE : q0 ++ '\x7b' :: (a0 :: a2t) =
            (str "export async function " ++ m) ++
              (w1p ++ '(' :: (b0 ++ ')' :: (w2p ++ ['\x7b']))) := by
          rw [← hy2, hpr1]
          simp [List.append_assoc]
        have hH : '\x7b' ∉ str "export async function " ++ m := by
          intro hmem
          rcases List.mem_append.mp hmem with h1 | h1
          · revert h1; decide
          · exact hm h1
        rcases List.append_eq_append_iff.mp hE with ⟨u, hHu, hT⟩ | ⟨v, hq0, hT⟩
        · cases u with
          | nil =>
            rw [List.append_nil] at hHu
            rw [List.nil_append] at hT
            cases w1p with
            | nil =>
              rw [List.nil_append] at hT
              injection hT with hT1 _
              revert hT1; decide
            | cons w ws =>
              rw [List.cons_append] at hT
              injection hT with hT1 _
              have hws := hw1 w (List.mem_cons_self _ _)
              rw [← hT1] at hws
              revert hws; decide
          | cons u0 ut =>
            rw [List.cons_append] at hT
            injection hT with hT1 _
            refine absurd ?_ hH
            rw [hHu, ← hT1]
            exact List.mem_append_right _ (List.mem_cons_self _ _)
        · rcases List.append_eq_append_iff.mp hT.symm with ⟨u, hw1u, hT2⟩ | ⟨u, hvu, hT2⟩
          · cases u with
            | nil =>
              rw [List.nil_append] at hT2
              injection hT2 with hT1 _
              revert hT1; decide
            | cons u0 ut =>
              rw [List.cons_append] at hT2
              injection hT2 with hT1 _
              have hws := hw1 u0 (by
                rw [hw1u]; exact List.mem_append_right _ (List.mem_cons_self _ _))
              rw [← hT1] at hws
              revert hws; decide
          · cases u with
            | nil =>
              rw [List.nil_append] at hT2
              injection hT2 with hT1 _
              revert hT1; decide
            | cons u0 ut =>
              rw [List.cons_append] at hT2
              injection hT2 with hT1 hT2b
              rcases List.append_eq_append_iff.mp hT2b with ⟨w, hutw, hT3⟩ | ⟨w, hb0w, hT3⟩
              · cases w with
                | nil =>
                  rw [List.nil_append] at hT3
                  injection hT3 with hT1b _
                  revert hT1b; decide
                | cons x0 wt =>
                  rw [List.cons_append] at hT3
                  injection hT3 with _ hT3b
                  rcases List.append_eq_append_iff.mp hT3b with ⟨z, hwtz, hT4⟩ | ⟨z, hw2z, hT4⟩
                  · cases z with
                    | nil =>
                      rw [List.nil_append] at hT4
                      injection hT4 with _ hT4b
                      exact List.cons_ne_nil _ _ hT4b.symm
                    | cons z0 zt =>
                      rw [List.cons_append] at hT4
                      injection hT4 with _ hT4b
                      exact List.cons_ne_nil _ _ (List.append_eq_nil.mp hT4b.symm).2
                  · cases z with
                    | nil =>
                      rw [List.nil_append] at hT4
                      injection hT4 with _ hT4b
                      exact List.cons_ne_nil _ _ hT4b
                    | cons z0 zt =>
                      rw [List.cons_append] at hT4
                      injection hT4 with hT1c _
                      have hws := hw2 z0 (by
                        rw [hw2z]; exact List.mem_append_right _ (List.mem_cons_self _ _))
                      rw [← hT1c] at hws
                      revert hws; decide
              · cases w with
                | nil =>
                  rw [List.nil_append] at hT3
                  injection hT3 with hT1b _
                  revert hT1b; decide
                | cons w0 wt =>
                  rw [List.cons_append] at hT3
                  injection hT3 with hT1b hT3b
                  have hwt : (')' : Char) ∉ wt := by
                    intro hc
                    have hb := hb0 ')' (by
                      rw [hb0w]; exact List.mem_append_right _ (List.mem_cons_of_mem _ hc))
                    revert hb; decide
                  have hpA : (')' : Char) ∉ str "\n  const requestId = getRequestId(request" := by
                    decide
                  have hthis : UpdEp.phase1Init ++ r = (a0 :: a2t) ++ pr.2 := hins
                  rw [hT3b] at hthis
                  have e : UpdEp.phase1Init = str "\n  const requestId = getRequestId(request" ++
                      ')' :: str ";\n  const startTime = Date.now();\n" := rfl
                  rw [e] at hthis
                  have hkey : str "\n  const requestId = getRequestId(request" ++
                      ')' :: (str ";\n  const startTime = Date.now();\n" ++ r) =
                      wt ++ ')' :: (w2p ++ '\x7b' :: pr.2) := by
                    simpa [List.append_assoc] using hthis
                  rcases append_cancel_first _ _ _ _ hpA hwt hkey with ⟨_, hrest⟩
                  have hsemi : (';' : Char) :: (str "\n  const startTime = Date.now();\n" ++ r) =
                      w2p ++ '\x7b' :: pr.2 := hrest
                  cases w2p with
                  | nil =>
                    rw [List.nil_append] at hsemi
                    injection hsemi with hh _
                    revert hh; decide
                  | cons w2 w2t =>
                    rw [List.cons_append] at hsemi
                    injection hsemi with hh _
                    have hws := hw2 w2 (List.mem_cons_self _ _)
                    rw [← hh] at hws
                    revert hws; decide
    · have hc : UpdEp.tryUMH m (pr.1 ++ (c2 ++ r)) = some (pr.1, c2 ++ r) := by
        rw [hy2]
        simpa [List.append_assoc] using
          tryUMH_complete m w1p b0 w2p (c2 ++ r) hw1 hb0 hbne hw2
      rw [hq, List.append_assoc] at hfail
      rw [hfail] at hc
      cases hc

theorem searchSplit_stable {m : List Char} (hm : '\x7b' ∉ m) :
    ∀ l pr, searchSplit (UpdEp.tryUMH m) l = some pr →
      searchSplit (UpdEp.tryUMH m) (pr.1 ++ (UpdEp.phase1Init ++ pr.2)) =
        some (pr.1, UpdEp.phase1Init ++ pr.2) := by
  intro l
  induction l with
  | nil => intro pr h; cases h
  | cons c cs ih =>
    intro pr h
    simp only [searchSplit] at h
    cases hf : UpdEp.tryUMH m (c :: cs) with
    | some qr =>
      rw [hf] at h
      injection h with h1
      subst h1
      have hsnd := tryUMH_sound _ _ hf
      have hq : UpdEp.tryUMH m (qr.1 ++ qr.2) = some (qr.1, qr.2) := by
        rw [← hsnd]; exact hf
      have hq2 : UpdEp.tryUMH m (qr.1 ++ (UpdEp.phase1Init ++ qr.2)) =
          some (qr.1, UpdEp.phase1Init ++ qr.2) := tryUMH_extend hq
      rcases tryUMH_brace _ _ hf with ⟨x0, hx0⟩
      cases hpr1 : qr.1 with
      | nil =>
        rw [hpr1] at hx0
        exact absurd hx0.symm (by simp)
      | cons d ds =>
        rw [hpr1] at hq2
        simp only [List.cons_append]
        simp only [searchSplit]
        rw [show UpdEp.tryUMH m (d :: (ds ++ (UpdEp.phase1Init ++ qr.2))) =
            some (d :: ds, UpdEp.phase1Init ++ qr.2) from by simpa using hq2]
    | none =>
      rw [hf] at h
      cases hs : searchSplit (UpdEp.tryUMH m) cs with
      | none => rw [hs] at h; cases h
      | some qr =>
        rw [hs] at h
        injection h with h1
        subst h1
        dsimp only
        have ihq := ih qr hs
        have hcs : cs = qr.1 ++ qr.2 := searchSplit_sound _ tryUMH_sound cs qr hs
        rcases searchSplit_consumed (UpdEp.tryUMH m) (P := fun t => ∃ x0, t = x0 ++ ['\x7b'])
          tryUMH_brace cs qr hs with ⟨u, t, hut, x0, hx0⟩
        have hq : c :: qr.1 = (c :: (u ++ x0)) ++ ['\x7b'] := by
          rw [hut, hx0]
          simp [List.append_assoc]
        have hfnone : UpdEp.tryUMH m ((c :: qr.1) ++ qr.2) = none := by
          rw [show (c :: qr.1) ++ qr.2 = c :: cs from by rw [List.cons_append, ← hcs]]
          exact hf
        have hfail2 := @tryUMH_failIns m (c :: (u ++ x0)) qr.2 hm
          (by rw [← hq]; exact hfnone)
        rw [← hq] at hfail2
        simp only [List.cons_append]
        simp only [searchSplit]
        rw [show UpdEp.tryUMH m (c :: (qr.1 ++ (UpdEp.phase1Init ++ qr.2))) = none from by
          simpa using hfail2]
        rw [show searchSplit (UpdEp.tryUMH m) (qr.1 ++ (UpdEp.phase1Init ++ qr.2)) =
            some (qr.1, UpdEp.phase1Init ++ qr.2) from ihq]

set_option maxRecDepth 100000 in
/-- C1 counterexample: add_request_tracking_to_get of apply-phase1-standards.py
is not idempotent: its GET-header rule matches its own output again, so a
second application inserts the initialization block a second time. -/
theorem C1_counterexample :
    Phase1.add_request_tracking_to_get (Phase1.add_request_tracking_to_get cGet) ≠
      Phase1.add_request_tracking_to_get cGet := by
  decide

/-- C1 amended: update_method_handler of update-phase1-endpoints.py is
idempotent for every method name free of an opening brace: a second
application finds the same first method header, sees the request-identifier
marker it has just inserted inside the five-hundred-character guard window,
and returns its input unchanged. The add_request_tracking_to_get rule of
apply-phase1-standards.py has no such guard and is not idempotent. -/
theorem C1_update_method_handler_idempotent :
    ∀ (content m : List Char), '\x7b' ∉ m →
      UpdEp.update_method_handler (UpdEp.update_method_handler content m) m =
        UpdEp.update_method_handler content m := by
  intro content m hm
  cases hs : searchSplit (UpdEp.tryUMH m) content with
  | none =>
    have h1 : UpdEp.update_method_handler content m = content := by
      unfold UpdEp.update_method_handler; rw [hs]
    rw [h1]; exact h1
  | some pr =>
    by_cases hocc : occursIn UpdEp.reqIdMarker (pr.2.take 500) = true
    · have h1 : UpdEp.update_method_handler content m = content := by
        unfold UpdEp.update_method_handler; rw [hs]; simp [hocc]
      rw [h1]; exact h1
    · have hoccf : occursIn UpdEp.reqIdMarker (pr.2.take 500) = false := by
        simpa using hocc
      have h1 : UpdEp.update_method_handler content m =
          pr.1 ++ UpdEp.phase1Init ++ pr.2 := by
        unfold UpdEp.update_method_handler; rw [hs]; simp [hoccf]
      rw [h1]
      have hstab := searchSplit_stable hm content pr hs
      unfold UpdEp.update_method_handler
      rw [show pr.1 ++ UpdEp.phase1Init ++ pr.2 = pr.1 ++ (UpdEp.phase1Init ++ pr.2) from
        List.append_assoc _ _ _]
      rw [hstab]
      have hocc2 : occursIn UpdEp.reqIdMarker ((UpdEp.phase1Init ++ pr.2).take 500) = true := by
        rw [List.take_append_eq_append_take]
        exact occursIn_append_left _ (by rfl)
      simp [hocc2]

set_option maxRecDepth 100000 in
/-- C1 witness: idempotence of update_method_handler on the concrete GET file,
with the method name GET free of braces. -/
theorem C1_witness :
    '\x7b' ∉ str "GET" ∧
    UpdEp.update_method_handler (UpdEp.update_method_handler cGet (str "GET")) (str "GET") =
      UpdEp.update_method_handler cGet (str "GET") :=
  ⟨by decide, C1_update_method_handler_idempotent cGet (str "GET") (by decide)⟩
